import Mathlib

set_option maxHeartbeats 1000000
set_option maxRecDepth 100000

/-! Shallow embedding of the SCAM storage/streaming core: `scam/series.py`,
`scam/tracedb.py`, `scam/trace.py` and `sca_datamodel/experiment.py`.
The HDF5 backend is modelled as an explicit directory of files, each file a
tree of named groups with scalar attributes and five resizable datasets per
series group.  Timestamps are microsecond counts; their ISO text encoding is
modelled by the decimal digit string, which carries the same information as
`datetime.isoformat` at microsecond precision. -/

/-- Sample vector of a trace: the numpy array's shape together with its contents. -/
structure Samples where
  shape : List Nat
  data : List Int
deriving DecidableEq

/-- Fill value used when a dataset is grown (h5py zero fill). -/
def samplesPad : Samples := { shape := [], data := [] }

/-- The empty string, the on-disk sentinel for an absent annotation. -/
def emptyStr : String := ""

/-- Metadata value as seen by the persistence layer: Python `str`, `int`/`float`, or
a non-scalar value that the `isinstance` filters skip. -/
inductive PyVal where
  | str (s : String)
  | int (i : Int)
  | other
deriving DecidableEq

def PyVal.isScalar : PyVal → Bool
  | .str _ => true
  | .int _ => true
  | .other => false

/-- Association-list lookup keyed by strings (Python dict / h5py group member access). -/
def lookupA {β : Type} : List (String × β) → String → Option β
  | [], _ => none
  | (k', v) :: rest, k => if k' = k then some v else lookupA rest k

/-- Association-list insert-or-replace preserving insertion order
(Python dict assignment / h5py attribute assignment). -/
def setA {β : Type} : List (String × β) → String → β → List (String × β)
  | [], k, v => [(k, v)]
  | (k', v') :: rest, k, v => if k' = k then (k, v) :: rest else (k', v') :: setA rest k v

/-- One measurement trace (`scam/trace.py`): samples, three optional text
fields and a timestamp (microseconds). -/
structure Trace where
  samples : Samples
  stimulus : Option String
  response : Option String
  key : Option String
  timestamp : Nat
deriving DecidableEq

/-- Text cell written by `Series._write_trace` for an optional text field:
`str(x) if x else ""` (Python truthiness, so the empty string also maps to `""`). -/
def encodeAnn : Option String → String
  | none => emptyStr
  | some s => if s = emptyStr then emptyStr else s

/-- Text cell written by `TraceDB._write_hdf5`: `str(x) if x is not None else ""`. -/
def encodeAnn2 : Option String → String
  | none => emptyStr
  | some s => s

/-- Reading a text cell back (`Series._read_trace`: `.decode() or None`). -/
def decodeAnn (s : String) : Option String :=
  if s = emptyStr then none else some s

/-- Timestamp text encoding: the decimal digit string of the microsecond count
(the information content of `datetime.isoformat`). -/
def tsEncode (t : Nat) : List Nat := Nat.digits 10 t

/-- Timestamp text parsing (`datetime.fromisoformat`). -/
def tsDecode (ds : List Nat) : Nat := Nat.ofDigits 10 ds

/-- The five resizable datasets of a series group: samples plus the four text
arrays, all sharing one capacity in well-formed files. -/
structure DSets where
  sampleShape : List Nat
  samples : List Samples
  timestamps : List (List Nat)
  stimuli : List String
  responses : List String
  keys : List String
deriving DecidableEq

/-- Resize a dataset column to length `n` (h5py `resize`: truncate or pad with fill). -/
def resizeL {α : Type} (l : List α) (n : Nat) (pad : α) : List α :=
  l.take n ++ List.replicate (n - l.length) pad

/-- Resize all five datasets to length `n`. -/
def DSets.resizeAll (d : DSets) (n : Nat) : DSets :=
  { d with samples := resizeL d.samples n samplesPad,
           timestamps := resizeL d.timestamps n [],
           stimuli := resizeL d.stimuli n emptyStr,
           responses := resizeL d.responses n emptyStr,
           keys := resizeL d.keys n emptyStr }

/-- A series group inside a file: scalar attributes, the two reserved
attributes (`trace_count`, `measurement_id`, modelled as dedicated fields),
and the optional datasets (`none` while `samples` has not been created). -/
structure H5Series where
  attrs : List (String × PyVal)
  traceCount : Option Nat
  measurementId : Option String
  dsets : Option DSets
deriving DecidableEq

/-- An experiment group: scalar attributes plus named series groups. -/
structure H5Exp where
  attrs : List (String × PyVal)
  series : List (String × H5Series)
deriving DecidableEq

/-- A file: named top-level experiment groups. -/
structure H5File where
  exps : List (String × H5Exp)
deriving DecidableEq

/-- The directory: named files. -/
abbrev FS := List (String × H5File)

def emptyH5Series : H5Series :=
  { attrs := [], traceCount := none, measurementId := none, dsets := none }

def lookupGroup (fs : FS) (fn en sn : String) : Option H5Series :=
  (lookupA fs fn).bind fun f => (lookupA f.exps en).bind fun eg => lookupA eg.series sn

def H5File.setGroup (f : H5File) (en sn : String) (g : H5Series) : H5File :=
  match lookupA f.exps en with
  | some eg => { exps := setA f.exps en { eg with series := setA eg.series sn g } }
  | none => { exps := setA f.exps en { attrs := [], series := [(sn, g)] } }

def modifyGroupFS (fs : FS) (fn en sn : String) (g : H5Series) : FS :=
  match lookupA fs fn with
  | some f => setA fs fn (f.setGroup en sn g)
  | none => fs

/-- Error taxonomy of the spec: `stateErr` = RuntimeError from a mode check,
`validationErr` = ValueError, `safetyErr` = the append-session ValueError
naming the existing and the specified identifier, `cancelledErr` = the
interactive refusal, `backendErr` = an error surfaced by h5py itself. -/
inductive Err where
  | stateErr
  | validationErr
  | safetyErr (existing specified : String)
  | cancelledErr
  | backendErr
deriving DecidableEq

inductive SeriesMode where
  | memory
  | writing
  | reading
deriving DecidableEq

/-- The Series object (`scam/series.py`): public fields plus the internal
state (`_mode`, `_h5file`/`_h5group` as the `h5` binding, `_source`,
`_sample_shape`). -/
structure Series where
  name : String
  traces : List Trace
  metadata : List (String × PyVal)
  mode : SeriesMode
  h5 : Option (String × String)
  source : Option (String × String)
  sampleShape : Option (List Nat)
deriving DecidableEq

/-- `Series(name=..., traces=[])`. -/
def mkSeries (name : String) : Series :=
  { name := name, traces := [], metadata := [], mode := .memory,
    h5 := none, source := none, sampleShape := none }

/-- Store scalar metadata entries as group attributes; non-scalars are skipped
by the `isinstance` filter. -/
def storeAttrs (attrs : List (String × PyVal)) (md : List (String × PyVal)) :
    List (String × PyVal) :=
  md.foldl (fun a kv => if kv.2.isScalar then setA a kv.1 kv.2 else a) attrs

/-- The freshly allocated datasets of `_create_datasets`: initial capacity
1000 for all five columns. -/
def initDSets (shape : List Nat) : DSets :=
  { sampleShape := shape,
    samples := List.replicate 1000 samplesPad,
    timestamps := List.replicate 1000 [],
    stimuli := List.replicate 1000 emptyStr,
    responses := List.replicate 1000 emptyStr,
    keys := List.replicate 1000 emptyStr }

/-- `Series._create_datasets`: allocate the five datasets with initial
capacity 1000 and zero the trace count.  The chunk-size argument only affects
the I/O layout and is not modelled. -/
def H5Series.createDatasets (g : H5Series) (shape : List Nat) : H5Series :=
  { g with dsets := some (initDSets shape), traceCount := some 0 }

/-- `Series._write_trace` acting on the datasets: grow by a block to
`index + 1000` when `index` is beyond the current capacity, then write the
five cells at `index`. -/
def DSets.writeTrace (d : DSets) (t : Trace) (index : Nat) : DSets :=
  let d := if d.samples.length ≤ index then d.resizeAll (index + 1000) else d
  { d with samples := d.samples.set index t.samples,
           timestamps := d.timestamps.set index (tsEncode t.timestamp),
           stimuli := d.stimuli.set index (encodeAnn t.stimulus),
           responses := d.responses.set index (encodeAnn t.response),
           keys := d.keys.set index (encodeAnn t.key) }

def H5Series.writeTrace (g : H5Series) (t : Trace) (index : Nat) : H5Series :=
  match g.dsets with
  | none => g
  | some d => { g with dsets := some (d.writeTrace t index) }

/-- The loop in `open_for_writing` that persists already-buffered traces at
consecutive indices starting at `start`. -/
def H5Series.writeList (g : H5Series) (ts : List Trace) (start : Nat) : H5Series :=
  match ts with
  | [] => g
  | t :: rest => (g.writeTrace t start).writeList rest (start + 1)

/-- Python truthiness of an optional string. -/
def truthyS : Option String → Bool
  | none => false
  | some s => if s = emptyStr then false else true

/-- `Series._verify_append_safety`: identifiers match → proceed; both present
but different → safety error naming both; otherwise an interactive
confirmation whose outcome is the `interactiveYes` parameter. -/
def Series.verifyAppendSafety (g : H5Series) (mid : String) (interactiveYes : Bool) :
    Except Err Unit :=
  if truthyS (some mid) && truthyS g.measurementId then
    if g.measurementId = some mid then .ok ()
    else .error (.safetyErr (g.measurementId.getD emptyStr) mid)
  else if interactiveYes then .ok () else .error .cancelledErr

inductive WMode where
  | w
  | a
deriving DecidableEq

/-- The sample-shape refresh done on an existing group: when a nonempty
samples dataset exists, `_sample_shape` becomes its element shape, otherwise
the old value is kept (`samples.shape[1:]` reads). -/
def shapeOfGroup (g : H5Series) (old : Option (List Nat)) : Option (List Nat) :=
  match g.dsets with
  | some d => if 0 < d.samples.length then some d.sampleShape else old
  | none => old

/-- The group-level tail of `open_for_writing`: write series metadata and the
measurement id as attributes, create the datasets when the sample shape is
known and they are absent, persist any buffered traces, bump the trace count. -/
def openWGroup (s : Series) (g : H5Series) (shape' : Option (List Nat)) (mid : String) :
    H5Series :=
  let g := { g with attrs := storeAttrs g.attrs s.metadata }
  let g := if mid = emptyStr then g else { g with measurementId := some mid }
  let g := match shape', g.dsets with
    | some sh, none => g.createDatasets sh
    | _, _ => g
  let current := (g.traceCount).getD 0
  let g2 := g.writeList s.traces current
  if s.traces.isEmpty then g2 else { g2 with traceCount := some (current + s.traces.length) }

/-- Common tail of `open_for_writing` after the target group is selected:
update the group through `openWGroup`, bind and transition to WRITING. -/
def Series.openWFinish (s : Series) (fs : FS) (filename en : String)
    (fileBase : H5File) (g : H5Series) (shape' : Option (List Nat)) (mid : String) :
    FS × Series :=
  (setA fs filename (fileBase.setGroup en s.name (openWGroup s g shape' mid)),
   { s with mode := .writing, h5 := some (filename, en), source := some (filename, en),
            sampleShape := shape' })

/-- `Series.open_for_writing`.  `mode = .a` with an existing file reopens it;
otherwise a fresh file is created (truncating any existing one). -/
def Series.openForWriting (s : Series) (fs : FS) (filename en : String) (mode : WMode)
    (expMeta : Option (List (String × PyVal))) (measurementId : Option String)
    (confirmAppend : Bool) (sessionUUID : String) (interactiveYes : Bool) :
    Except Err (FS × Series) :=
  if s.mode ≠ .memory then .error .stateErr
  else
    let mid := measurementId.getD sessionUUID
    let expAttrs := storeAttrs [] (expMeta.getD [])
    match mode, lookupA fs filename with
    | .a, some file =>
      match lookupA file.exps en with
      | some eg =>
        match lookupA eg.series s.name with
        | some g =>
          let existingCount := (g.traceCount).getD 0
          let shape' := shapeOfGroup g s.sampleShape
          if 0 < existingCount ∧ confirmAppend then
            match Series.verifyAppendSafety g mid interactiveYes with
            | .error e => .error e
            | .ok _ => .ok (s.openWFinish fs filename en file g shape' mid)
          else .ok (s.openWFinish fs filename en file g shape' mid)
        | none => .ok (s.openWFinish fs filename en file emptyH5Series s.sampleShape mid)
      | none =>
        let file : H5File := { exps := setA file.exps en { attrs := expAttrs, series := [] } }
        .ok (s.openWFinish fs filename en file emptyH5Series s.sampleShape mid)
    | _, _ =>
      let file : H5File := { exps := [(en, { attrs := expAttrs, series := [] })] }
      .ok (s.openWFinish fs filename en file emptyH5Series s.sampleShape mid)

/-- The group-level step of `add_trace` in WRITING mode: create the datasets
when this is the first buffered trace and none exist, write at the persisted
index, bump the count.  `newLen` is the buffer length after the append. -/
def addTraceGroup (g : H5Series) (t : Trace) (newLen : Nat) (shape' : Option (List Nat)) :
    H5Series :=
  let g := if newLen = 1 ∧ g.dsets.isNone then
      match shape' with
      | some sh => g.createDatasets sh
      | none => g
    else g
  let index := (g.traceCount).getD 0
  { g.writeTrace t index with traceCount := some (index + 1) }

/-- Continuation of `Series.add_trace` after the shape check: establish the
sample shape, append to the buffer, and in WRITING mode persist through
`addTraceGroup`. -/
def Series.addTraceCont (s : Series) (fs : FS) (t : Trace) : Except Err (FS × Series) :=
  let shape' := match s.sampleShape with
    | none => some t.samples.shape
    | some sh => some sh
  let s' := { s with traces := s.traces ++ [t], sampleShape := shape' }
  if s.mode = .writing then
    match s.h5 with
    | some (fn, en) =>
      match lookupGroup fs fn en s.name with
      | some g =>
        .ok (modifyGroupFS fs fn en s.name
          (addTraceGroup g t (s.traces ++ [t]).length shape'), s')
      | none => .error .backendErr
    | none => .error .backendErr
  else .ok (fs, s')

/-- `Series.add_trace`: refuse in READING mode; validate the shape against the
first buffered trace when the buffer is nonempty; then append / persist. -/
def Series.addTrace (s : Series) (fs : FS) (t : Trace) : Except Err (FS × Series) :=
  if s.mode = .reading then .error .stateErr
  else
    match s.traces with
    | [] => s.addTraceCont fs t
    | t0 :: _ =>
      if t.samples.shape ≠ t0.samples.shape then .error .validationErr
      else s.addTraceCont fs t

/-- `Series.close_writing`: no-op unless WRITING; trim the datasets to the
persisted count when it is positive and the samples dataset exists; release
the binding and return to MEMORY. -/
def Series.closeWriting (s : Series) (fs : FS) : FS × Series :=
  if s.mode = .writing then
    let s' := { s with h5 := none, mode := .memory }
    match s.h5 with
    | some (fn, en) =>
      match lookupGroup fs fn en s.name with
      | some g =>
        let count := (g.traceCount).getD 0
        let g' := if 0 < count then
            match g.dsets with
            | some d => { g with dsets := some (d.resizeAll count) }
            | none => g
          else g
        (modifyGroupFS fs fn en s.name g', s')
      | none => (fs, s')
    | none => (fs, s')
  else (fs, s)

/-- Tail of `open_for_reading` once the target is known: bind, clear the
buffer, read back the persisted sample shape, transition to READING. -/
def Series.openRCont (s : Series) (fs : FS) (fn en : String) : Except Err (FS × Series) :=
  match lookupGroup fs fn en s.name with
  | none => .error .backendErr
  | some g =>
    .ok (fs, { s with mode := .reading, h5 := some (fn, en), source := some (fn, en),
                      traces := [], sampleShape := shapeOfGroup g s.sampleShape })

/-- `Series.open_for_reading`: refuse outside MEMORY; use the given target or
fall back to the recorded source; fail when neither exists. -/
def Series.openForReading (s : Series) (fs : FS) (target : Option (String × String)) :
    Except Err (FS × Series) :=
  if s.mode ≠ .memory then .error .stateErr
  else
    match target, s.source with
    | some (fn, en), _ => s.openRCont fs fn en
    | none, some (fn, en) => s.openRCont fs fn en
    | none, none => .error .validationErr

/-- `Series.close_reading`: no-op unless READING; release the binding. -/
def Series.closeReading (s : Series) : Series :=
  if s.mode = .reading then { s with h5 := none, mode := .memory } else s

/-- `Series.__len__` in READING mode: the `trace_count` attribute, else the
samples dataset length, else 0. -/
def H5Series.lenR (g : H5Series) : Nat :=
  match g.traceCount with
  | some n => n
  | none =>
    match g.dsets with
    | some d => d.samples.length
    | none => 0

/-- `Series._read_trace`: decode the five cells at one index. -/
def H5Series.readTrace (g : H5Series) (i : Nat) : Trace :=
  match g.dsets with
  | none => { samples := samplesPad, stimulus := none, response := none, key := none,
              timestamp := 0 }
  | some d =>
    { samples := d.samples.getD i samplesPad,
      timestamp := tsDecode (d.timestamps.getD i []),
      stimulus := decodeAnn (d.stimuli.getD i emptyStr),
      response := decodeAnn (d.responses.getD i emptyStr),
      key := decodeAnn (d.keys.getD i emptyStr) }

/-- Lazy iteration over a group (`Series.__iter__` in READING mode). -/
def H5Series.readAll (g : H5Series) : List Trace :=
  (List.range g.lenR).map g.readTrace

/-- `list(series)`: lazy reads in READING mode, the buffer otherwise. -/
def Series.toListS (s : Series) (fs : FS) : List Trace :=
  if s.mode = .reading then
    match s.h5 with
    | some (fn, en) =>
      match lookupGroup fs fn en s.name with
      | some g => g.readAll
      | none => []
    | none => []
  else s.traces

/-- An experiment (`sca_datamodel/experiment.py`). -/
structure Experiment where
  name : String
  series : List Series
  metadata : List (String × PyVal)
deriving DecidableEq

/-- The database (`scam/tracedb.py`): insertion-ordered name → experiment map. -/
structure TraceDB where
  experiments : List (String × Experiment)
deriving DecidableEq

/-- Non-fatal warnings raised through `warnings.warn`. -/
inductive Warning where
  | dupExperiment (name : String)
  | dupSeries (expName seriesName : String)
  | saveSkip (expName seriesName : String)
deriving DecidableEq

/-- `dict.update` seeding of a metadata map, skipped for a missing/empty argument. -/
def mdUpdate (old : List (String × PyVal)) (new : Option (List (String × PyVal))) :
    List (String × PyVal) :=
  match new with
  | none => old
  | some l => l.foldl (fun a kv => setA a kv.1 kv.2) old

/-- `TraceDB.get_or_create_experiment`. -/
def TraceDB.getOrCreateExperiment (db : TraceDB) (name : String)
    (md : Option (List (String × PyVal))) : TraceDB × Experiment × List Warning :=
  match lookupA db.experiments name with
  | none =>
    let e : Experiment := { name := name, series := [], metadata := mdUpdate [] md }
    ({ experiments := db.experiments ++ [(name, e)] }, e, [])
  | some e => (db, e, [.dupExperiment name])

/-- `Experiment.__getitem__` with a string key: first series of that name. -/
def Experiment.findSeries (e : Experiment) (name : String) : Option Series :=
  e.series.find? (fun s => s.name == name)

/-- `Experiment.get_or_create_series`. -/
def Experiment.getOrCreateSeries (e : Experiment) (name : String)
    (md : Option (List (String × PyVal))) : Experiment × Series × List Warning :=
  match e.findSeries name with
  | some ex => (e, ex, [.dupSeries e.name name])
  | none =>
    let s : Series := { mkSeries name with metadata := mdUpdate [] md }
    ({ e with series := e.series ++ [s] }, s, [])

/-- `TraceDB._write_hdf5`, one series: exact-size datasets built from the
in-memory trace buffer, `trace_count` always set. -/
def encodeSeriesGroup (s : Series) : H5Series :=
  { attrs := storeAttrs [] s.metadata,
    traceCount := some s.traces.length,
    measurementId := none,
    dsets :=
      match s.traces with
      | [] => none
      | t0 :: _ => some
        { sampleShape := t0.samples.shape,
          samples := s.traces.map (fun t => t.samples),
          timestamps := s.traces.map (fun t => tsEncode t.timestamp),
          stimuli := s.traces.map (fun t => encodeAnn2 t.stimulus),
          responses := s.traces.map (fun t => encodeAnn2 t.response),
          keys := s.traces.map (fun t => encodeAnn2 t.key) } }

/-- `TraceDB._write_hdf5`: serialize a hierarchy into a fresh file. -/
def writeHdf5File (exps : List (String × Experiment)) : H5File :=
  { exps := exps.map (fun p =>
      (p.1, { attrs := storeAttrs [] p.2.metadata,
              series := p.2.series.map (fun s => (s.name, encodeSeriesGroup s)) })) }

/-- `TraceDB.load_hdf5`: read the hierarchy and the scalar metadata only; every
series comes back in MEMORY mode with an empty buffer and a recorded source. -/
def TraceDB.loadHdf5 (fs : FS) (filename : String) : Except Err TraceDB :=
  match lookupA fs filename with
  | none => .error .backendErr
  | some file =>
    .ok { experiments := file.exps.map (fun p =>
      (p.1, { name := p.1,
              metadata := p.2.attrs,
              series := p.2.series.map (fun q =>
                { name := q.1, traces := [], metadata := q.2.attrs, mode := .memory,
                  h5 := none, source := some (filename, p.1), sampleShape := none }) })) }

/-- The materialization step of `save_hdf5` in update mode: a lazy series with
a recorded source and an empty buffer is read fully into memory through
`open_for_reading` / iteration / `close_reading`, and its source is cleared. -/
def materializeSeries (fs : FS) (s : Series) : Except Err Series :=
  if s.source.isSome ∧ s.traces.isEmpty then
    match s.openForReading fs none with
    | .error e => .error e
    | .ok (_, s₁) =>
      let ts := s₁.toListS fs
      let s₂ := s₁.closeReading
      .ok { s₂ with traces := ts, source := none }
  else .ok s

def materializeExp (fs : FS) (e : Experiment) : Except Err Experiment := do
  let ss ← e.series.mapM (materializeSeries fs)
  .ok { e with series := ss }

def materializeDB (fs : FS) (db : TraceDB) : Except Err (List (String × Experiment)) :=
  db.experiments.mapM (fun p => do
    let e ← materializeExp fs p.2
    pure (p.1, e))

/-- The inner merge of `save_hdf5` for one experiment present in both
hierarchies: colliding series names (against the snapshot of existing names)
are skipped with one warning each, the others are appended. -/
def mergeExp (en : String) (ex cur : Experiment) : Experiment × List Warning :=
  let names := ex.series.map (fun s => s.name)
  cur.series.foldl
    (fun acc s =>
      if s.name ∈ names then (acc.1, acc.2 ++ [Warning.saveSkip en s.name])
      else ({ acc.1 with series := acc.1.series ++ [s] }, acc.2))
    (ex, [])

/-- The merge loop of `save_hdf5` in update mode over the current experiments. -/
def mergeUpdate (existing : List (String × Experiment)) (cur : List (String × Experiment)) :
    List (String × Experiment) × List Warning :=
  cur.foldl
    (fun acc p =>
      match lookupA acc.1 p.1 with
      | some ex =>
        let r := mergeExp p.1 ex p.2
        (setA acc.1 p.1 r.1, acc.2 ++ r.2)
      | none => (acc.1 ++ [p], acc.2))
    (existing, [])

inductive SaveMode where
  | update
  | overwrite
deriving DecidableEq

/-- `TraceDB.save_hdf5`.  The invalid-mode ValueError cannot arise with the
`SaveMode` type; the returned list collects the non-fatal warnings. -/
def TraceDB.saveHdf5 (db : TraceDB) (fs : FS) (filename : String) (mode : SaveMode)
    (overwriteOk : Bool) : Except Err (FS × List Warning) :=
  let fileExists := (lookupA fs filename).isSome
  if mode = .overwrite ∧ fileExists ∧ ¬overwriteOk then .error .validationErr
  else if mode = .update ∧ fileExists then do
    let existing ← TraceDB.loadHdf5 fs filename
    let existingM ← materializeDB fs existing
    let r := mergeUpdate existingM db.experiments
    .ok (setA fs filename (writeHdf5File r.1), r.2)
  else .ok (setA fs filename (writeHdf5File db.experiments), [])

def fnF : String := "f"
def fnG : String := "g"
def expE : String := "E"
def snS : String := "S"
def snT : String := "T"
def sidA : String := "sida"
def sidB : String := "sidb"
def strA : String := "a"

/-- The write→read round trip of spec §8: stream a list of traces through a
fresh Series into a fresh file, close, reopen for reading, read all back. -/
def seriesRoundtrip (ts : List Trace) : Except Err (List Trace) := do
  let s := mkSeries snS
  let (fs, s) ← s.openForWriting [] fnF expE .w none none true sidA false
  let (fs, s) ← ts.foldlM (fun p t => p.2.addTrace p.1 t) (fs, s)
  let (fs, s) := s.closeWriting fs
  let (fs, s) ← s.openForReading fs none
  .ok (s.toListS fs)

/-- What the update-save materialization turns one stored series group into:
the traces decoded from the group, no source, MEMORY mode. -/
def matSeries (q : String × H5Series) : Series :=
  { name := q.1, traces := q.2.readAll, metadata := q.2.attrs, mode := .memory,
    h5 := none, source := none, sampleShape := shapeOfGroup q.2 none }

/-- One stored experiment group after load plus materialization. -/
def matExp (p : String × H5Exp) : Experiment :=
  { name := p.1, metadata := p.2.attrs, series := p.2.series.map matSeries }

/-- A file with every series group's datasets and reserved attributes erased;
used to state that `load` reads no trace data. -/
def H5File.stripData (f : H5File) : H5File :=
  { exps := f.exps.map (fun p =>
      (p.1, { attrs := p.2.attrs,
              series := p.2.series.map (fun q =>
                (q.1, { attrs := q.2.attrs, traceCount := none, measurementId := none,
                        dsets := none })) })) }

deriving instance DecidableEq for Except

/-! Concrete fixtures used by witnesses and counterexamples. -/

def trA : Trace :=
  { samples := { shape := [2], data := [3, 4] }, stimulus := some strA, response := none,
    key := none, timestamp := 123456 }

def trB : Trace :=
  { samples := { shape := [2], data := [5, 6] }, stimulus := none, response := some strA,
    key := some strA, timestamp := 999 }

def trBadStim : Trace := { trA with stimulus := some emptyStr }

def trShape3 : Trace :=
  { samples := { shape := [3], data := [1, 2, 3] }, stimulus := none, response := none,
    key := none, timestamp := 0 }

/-- A file produced by the writer itself: experiment `E` holding series `S`
with the single trace `trA` (establishes sample shape `[2]`). -/
def fsOld : FS :=
  [(fnF, writeHdf5File
    [(expE, { name := expE, series := [{ mkSeries snS with traces := [trA] }],
              metadata := [] })])]

/-- A series group carrying a recorded session identifier `sidA` and one
persisted trace, as left behind by a writing session. -/
def gMid : H5Series :=
  { encodeSeriesGroup { mkSeries snS with traces := [trA] } with measurementId := some sidA }

def egMid : H5Exp := { attrs := [], series := [(snS, gMid)] }

def fileMid : H5File := { exps := [(expE, egMid)] }

/-- A directory holding `fileMid` under the name `fnF`. -/
def fsMid : FS := [(fnF, fileMid)]

/-- A series in an open WRITING session bound to `fileMid`'s group. -/
def sW : Series :=
  { mkSeries snS with mode := .writing, h5 := some (fnF, expE), source := some (fnF, expE) }

/-- Reach a MEMORY-mode series whose `_sample_shape` is established (from a
read session) while its buffer is empty, then add a trace of a different
shape. -/
def c3Pipeline : Except Err (FS × Series) := do
  let s := mkSeries snS
  let (fs1, s) ← s.openForReading fsOld (some (fnF, expE))
  let s := s.closeReading
  s.addTrace fs1 trShape3

/-- Reach a WRITING-mode series whose datasets were pre-allocated (shape known
from a prior read session) but with zero persisted traces, then close. -/
def c7Pipeline : Except Err (FS × Series) := do
  let s := mkSeries snS
  let (fs1, s) ← s.openForReading fsOld (some (fnF, expE))
  let s := s.closeReading
  let (fs2, s) ← s.openForWriting fs1 fnG expE .w none none true sidA false
  let (fs3, s) := s.closeWriting fs2
  .ok (fs3, s)

def expX : String := "X"

/-- The current database of the C5 counterexample: the experiment `E` (also
present in the target file) with no series of its own. -/
def dbE0 : TraceDB :=
  { experiments := [(expE, { name := expE, series := [], metadata := [] })] }

/-- A series whose name collides with the stored `S`. -/
def sColl : Series := { mkSeries snS with traces := [trB] }

/-- A fresh series `T`, absent from the stored file. -/
def sNewT : Series := { mkSeries snT with traces := [trB] }

/-- The current database of the C5 witness: the experiment `E` (present in the
file) holding the colliding `S` and the fresh `T`, plus a wholly new
experiment `X`. -/
def dbNew : TraceDB :=
  { experiments :=
      [(expE, { name := expE, series := [sColl, sNewT], metadata := [] }),
       (expX, { name := expX, series := [sNewT], metadata := [] })] }

/-! ### Invariants and well-formedness predicates used by the theorems -/

/-- The four text datasets have the same length as the samples dataset. -/
def dimsOk (d : DSets) : Prop :=
  d.timestamps.length = d.samples.length ∧ d.stimuli.length = d.samples.length ∧
  d.responses.length = d.samples.length ∧ d.keys.length = d.samples.length

/-- The first `n` slots of the datasets hold the encodings of `pre`. -/
def cellsOk (d : DSets) (pre : List Trace) : Prop :=
  ∀ i, (h : i < pre.length) →
    d.samples.getD i samplesPad = pre[i].samples ∧
    d.timestamps.getD i [] = tsEncode pre[i].timestamp ∧
    d.stimuli.getD i emptyStr = encodeAnn pre[i].stimulus ∧
    d.responses.getD i emptyStr = encodeAnn pre[i].response ∧
    d.keys.getD i emptyStr = encodeAnn pre[i].key

/-- The series group of an in-progress write session with `n` persisted traces. -/
def wGroup (n : Nat) (d : DSets) : H5Series :=
  { attrs := [], traceCount := some n, measurementId := some sidA, dsets := some d }

/-- The series group right after `open_for_writing` on a fresh file with an
unknown sample shape. -/
def emptyWGroup : H5Series :=
  { attrs := [], traceCount := none, measurementId := some sidA, dsets := none }

/-- State invariant of the `seriesRoundtrip` write session after the traces
`pre` have been streamed. -/
def WInvFull (pre : List Trace) (shape : List Nat) (fs : FS) (s : Series) : Prop :=
  s.name = snS ∧ s.mode = .writing ∧ s.h5 = some (fnF, expE) ∧
  s.source = some (fnF, expE) ∧ s.traces = pre ∧
  (∀ t ∈ pre, t.samples.shape = shape) ∧
  ((pre = [] ∧ s.sampleShape = none ∧ lookupGroup fs fnF expE snS = some emptyWGroup) ∨
   (pre ≠ [] ∧ s.sampleShape = some shape ∧
    ∃ d, lookupGroup fs fnF expE snS = some (wGroup pre.length d) ∧
      pre.length ≤ d.samples.length ∧ dimsOk d ∧ cellsOk d pre))

/-- Capacity invariant of a series group: the persisted count never exceeds
the samples dataset capacity. -/
def capInv (g : H5Series) : Prop :=
  ∀ d, g.dsets = some d → (g.traceCount).getD 0 ≤ d.samples.length

/-- The file system right after the opening step of `seriesRoundtrip`. -/
def fs0c : FS :=
  [(fnF, { exps := [(expE, { attrs := [], series := [(snS, emptyWGroup)] })] })]

/-- The series right after the opening step of `seriesRoundtrip`. -/
def s0c : Series :=
  { mkSeries snS with mode := .writing, h5 := some (fnF, expE), source := some (fnF, expE) }

/-! ### Association-list lemmas -/

theorem lookupA_setA_self {β : Type} (l : List (String × β)) (k : String) (v : β) :
    lookupA (setA l k v) k = some v := by
  induction l with
  | nil => simp [setA, lookupA]
  | cons hd tl ih =>
    obtain ⟨k', v'⟩ := hd
    by_cases h : k' = k
    · simp [setA, h, lookupA]
    · simp [setA, h, lookupA, ih]

theorem lookupA_setA_ne {β : Type} (l : List (String × β)) {k k' : String} (v : β)
    (h : k ≠ k') : lookupA (setA l k v) k' = lookupA l k' := by
  induction l with
  | nil => simp [setA, lookupA, h]
  | cons hd tl ih =>
    obtain ⟨k₀, v₀⟩ := hd
    by_cases h₀ : k₀ = k
    · subst h₀
      simp [setA, lookupA, h]
    · simp [setA, h₀, lookupA, ih]

theorem lookupA_append_some {β : Type} {l₁ : List (String × β)} (l₂ : List (String × β))
    {k : String} {v : β} (h : lookupA l₁ k = some v) : lookupA (l₁ ++ l₂) k = some v := by
  induction l₁ with
  | nil => simp [lookupA] at h
  | cons hd tl ih =>
    obtain ⟨k₀, v₀⟩ := hd
    by_cases h₀ : k₀ = k
    · simp [lookupA, h₀] at h ⊢
      exact h
    · simp [lookupA, h₀] at h ⊢
      exact ih h

theorem lookupA_append_none {β : Type} {l₁ : List (String × β)} (l₂ : List (String × β))
    {k : String} (h : lookupA l₁ k = none) : lookupA (l₁ ++ l₂) k = lookupA l₂ k := by
  induction l₁ with
  | nil => simp
  | cons hd tl ih =>
    obtain ⟨k₀, v₀⟩ := hd
    by_cases h₀ : k₀ = k
    · simp [lookupA, h₀] at h
    · simp [lookupA, h₀] at h ⊢
      exact ih h

theorem lookupA_eq_none_iff {β : Type} (l : List (String × β)) (k : String) :
    lookupA l k = none ↔ ¬ k ∈ l.map Prod.fst := by
  induction l with
  | nil => simp [lookupA]
  | cons hd tl ih =>
    obtain ⟨k₀, v₀⟩ := hd
    by_cases h₀ : k₀ = k
    · simp [lookupA, h₀]
    · have h₁ : k ≠ k₀ := fun he => h₀ he.symm
      simp [lookupA, h₀, ih, h₁]

theorem lookupA_of_mem_nodup {β : Type} {l : List (String × β)} {p : String × β}
    (hN : (l.map Prod.fst).Nodup) (hm : p ∈ l) : lookupA l p.1 = some p.2 := by
  induction l with
  | nil => simp at hm
  | cons hd tl ih =>
    obtain ⟨k₀, v₀⟩ := hd
    rcases List.mem_cons.mp hm with hm | hm
    · subst hm
      simp [lookupA]
    · have hk : k₀ ≠ p.1 := by
        intro he
        have : p.1 ∈ tl.map Prod.fst := List.mem_map_of_mem Prod.fst hm
        rw [← he] at this
        exact (List.nodup_cons.mp hN).1 this
      simp [lookupA, hk]
      exact ih (List.nodup_cons.mp hN).2 hm

theorem lookupA_map_value {β γ : Type} (l : List (String × β)) (F : β → γ) (k : String) :
    lookupA (l.map (fun p => (p.1, F p.2))) k = (lookupA l k).map F := by
  induction l with
  | nil => simp [lookupA]
  | cons hd tl ih =>
    obtain ⟨k₀, v₀⟩ := hd
    by_cases h₀ : k₀ = k
    · simp [lookupA, h₀]
    · simp [lookupA, h₀, ih]

theorem setA_map_fst {β : Type} {l : List (String × β)} {k : String} {v₀ : β}
    (v : β) (h : lookupA l k = some v₀) : (setA l k v).map Prod.fst = l.map Prod.fst := by
  induction l with
  | nil => simp [lookupA] at h
  | cons hd tl ih =>
    obtain ⟨k₀, v'⟩ := hd
    by_cases h₀ : k₀ = k
    · subst h₀
      simp [setA]
    · simp [lookupA, h₀] at h
      simp [setA, h₀, ih h]

theorem lookupGroup_setA_setGroup (fs : FS) (fn en sn : String) (fb : H5File) (g : H5Series) :
    lookupGroup (setA fs fn (fb.setGroup en sn g)) fn en sn = some g := by
  unfold lookupGroup H5File.setGroup
  rw [lookupA_setA_self]
  cases h : lookupA fb.exps en with
  | some eg => simp [lookupA_setA_self]
  | none => simp [lookupA_setA_self, lookupA]

theorem lookupGroup_modify_self {fs : FS} {fn en sn : String} {g₀ : H5Series} (g : H5Series)
    (h : lookupGroup fs fn en sn = some g₀) :
    lookupGroup (modifyGroupFS fs fn en sn g) fn en sn = some g := by
  unfold modifyGroupFS
  cases hf : lookupA fs fn with
  | none => unfold lookupGroup at h; simp [hf] at h
  | some f => exact lookupGroup_setA_setGroup fs fn en sn f g

/-! ### Dataset cell lemmas -/

theorem getD_lt {α : Type} (l : List α) (d : α) {i : Nat} (h : i < l.length) :
    l.getD i d = l[i] := by
  simp [List.getD_eq_getElem?_getD, List.getElem?_eq_getElem h]

theorem getD_set_self {α : Type} (l : List α) (i : Nat) (a d : α) (h : i < l.length) :
    (l.set i a).getD i d = a := by
  simp [List.getD_eq_getElem?_getD, List.getElem?_set_self', List.getElem?_eq_getElem h]

theorem getD_set_ne {α : Type} (l : List α) {i j : Nat} (a d : α) (h : i ≠ j) :
    (l.set i a).getD j d = l.getD j d := by
  simp [List.getD_eq_getElem?_getD, List.getElem?_set_ne h]

theorem length_resizeL {α : Type} (l : List α) (n : Nat) (p : α) :
    (resizeL l n p).length = n := by
  simp [resizeL]
  omega

theorem getD_resizeL {α : Type} {l : List α} {n i : Nat} (p d : α) (hn : i < n)
    (hl : i < l.length) : (resizeL l n p).getD i d = l.getD i d := by
  have ht : i < (l.take n).length := by
    simp [List.length_take]
    omega
  simp [resizeL, List.getD_eq_getElem?_getD, List.getElem?_append, ht,
    List.getElem?_take, hn, hl]

theorem getD_map {α β : Type} (f : α → β) {l : List α} {i : Nat} (d : β)
    (h : i < l.length) : (l.map f).getD i d = f l[i] := by
  simp [List.getD_eq_getElem?_getD, List.getElem?_map, List.getElem?_eq_getElem h]

/-! ### Encoding round-trip lemmas -/

theorem tsDecode_tsEncode (t : Nat) : tsDecode (tsEncode t) = t :=
  Nat.ofDigits_digits 10 t

theorem decodeAnn_encodeAnn {a : Option String} (h : a ≠ some emptyStr) :
    decodeAnn (encodeAnn a) = a := by
  cases a with
  | none => simp [encodeAnn, decodeAnn]
  | some s =>
    have hs : s ≠ emptyStr := fun hh => h (by rw [hh])
    simp [encodeAnn, decodeAnn, hs]

theorem decodeAnn_encodeAnn2 {a : Option String} (h : a ≠ some emptyStr) :
    decodeAnn (encodeAnn2 a) = a := by
  cases a with
  | none => simp [encodeAnn2, decodeAnn]
  | some s =>
    have hs : s ≠ emptyStr := fun hh => h (by rw [hh])
    simp [encodeAnn2, decodeAnn, hs]

theorem decodeAnn_ne_someEmpty (x : String) : decodeAnn x ≠ some emptyStr := by
  by_cases h : x = emptyStr <;> simp [decodeAnn, h]

/-! ### Write-path lemmas -/

theorem DSets.writeTrace_len (d : DSets) (t : Trace) (i : Nat) :
    (i < d.samples.length → (d.writeTrace t i).samples.length = d.samples.length) ∧
    (d.samples.length ≤ i → (d.writeTrace t i).samples.length = i + 1000) := by
  unfold DSets.writeTrace
  constructor
  · intro h
    have h' : ¬ d.samples.length ≤ i := by omega
    simp [h', List.length_set]
  · intro h
    simp [h, DSets.resizeAll, List.length_set, length_resizeL]

theorem DSets.writeTrace_spec (d : DSets) (t : Trace) (n : Nat)
    (hn : n ≤ d.samples.length) (hd : dimsOk d) :
    dimsOk (d.writeTrace t n) ∧
    (d.writeTrace t n).sampleShape = d.sampleShape ∧
    n + 1 ≤ (d.writeTrace t n).samples.length ∧
    (∀ i, i < n →
      ((d.writeTrace t n).samples.getD i samplesPad = d.samples.getD i samplesPad ∧
       (d.writeTrace t n).timestamps.getD i [] = d.timestamps.getD i [] ∧
       (d.writeTrace t n).stimuli.getD i emptyStr = d.stimuli.getD i emptyStr ∧
       (d.writeTrace t n).responses.getD i emptyStr = d.responses.getD i emptyStr ∧
       (d.writeTrace t n).keys.getD i emptyStr = d.keys.getD i emptyStr)) ∧
    ((d.writeTrace t n).samples.getD n samplesPad = t.samples ∧
     (d.writeTrace t n).timestamps.getD n [] = tsEncode t.timestamp ∧
     (d.writeTrace t n).stimuli.getD n emptyStr = encodeAnn t.stimulus ∧
     (d.writeTrace t n).responses.getD n emptyStr = encodeAnn t.response ∧
     (d.writeTrace t n).keys.getD n emptyStr = encodeAnn t.key) := by
  obtain ⟨hts, hst, hre, hke⟩ := hd
  by_cases hLe : d.samples.length ≤ n
  · have hEq : n = d.samples.length := by omega
    simp only [DSets.writeTrace, hLe, if_true, DSets.resizeAll]
    refine ⟨⟨?_, ?_, ?_, ?_⟩, ?_, ?_, ?_, ?_, ?_, ?_, ?_, ?_⟩
    · simp [List.length_set, length_resizeL]
    · simp [List.length_set, length_resizeL]
    · simp [List.length_set, length_resizeL]
    · simp [List.length_set, length_resizeL]
    · trivial
    · simp [List.length_set, length_resizeL]
    · intro i hi
      have hne : n ≠ i := by omega
      refine ⟨?_, ?_, ?_, ?_, ?_⟩
      · rw [getD_set_ne _ _ _ hne, getD_resizeL _ _ (by omega) (by omega)]
      · rw [getD_set_ne _ _ _ hne, getD_resizeL _ _ (by omega) (by omega)]
      · rw [getD_set_ne _ _ _ hne, getD_resizeL _ _ (by omega) (by omega)]
      · rw [getD_set_ne _ _ _ hne, getD_resizeL _ _ (by omega) (by omega)]
      · rw [getD_set_ne _ _ _ hne, getD_resizeL _ _ (by omega) (by omega)]
    · rw [getD_set_self _ _ _ _ (by rw [length_resizeL]; omega)]
    · rw [getD_set_self _ _ _ _ (by rw [length_resizeL]; omega)]
    · rw [getD_set_self _ _ _ _ (by rw [length_resizeL]; omega)]
    · rw [getD_set_self _ _ _ _ (by rw [length_resizeL]; omega)]
    · rw [getD_set_self _ _ _ _ (by rw [length_resizeL]; omega)]
  · have hLt : n < d.samples.length := by omega
    simp only [DSets.writeTrace, hLe, if_false]
    refine ⟨⟨?_, ?_, ?_, ?_⟩, ?_, ?_, ?_, ?_, ?_, ?_, ?_, ?_⟩
    · simp [List.length_set, hts]
    · simp [List.length_set, hst]
    · simp [List.length_set, hre]
    · simp [List.length_set, hke]
    · trivial
    · simp [List.length_set]
      omega
    · intro i hi
      have hne : n ≠ i := by omega
      exact ⟨getD_set_ne _ _ _ hne, getD_set_ne _ _ _ hne, getD_set_ne _ _ _ hne,
        getD_set_ne _ _ _ hne, getD_set_ne _ _ _ hne⟩
    · exact getD_set_self _ _ _ _ hLt
    · exact getD_set_self _ _ _ _ (by omega)
    · exact getD_set_self _ _ _ _ (by omega)
    · exact getD_set_self _ _ _ _ (by omega)
    · exact getD_set_self _ _ _ _ (by omega)

/-! ### Operation-level helper lemmas -/

theorem writeTrace_fields (g : H5Series) (t : Trace) (i : Nat) :
    (g.writeTrace t i).attrs = g.attrs ∧
    (g.writeTrace t i).traceCount = g.traceCount ∧
    (g.writeTrace t i).measurementId = g.measurementId ∧
    (g.dsets = none → (g.writeTrace t i).dsets = none) := by
  unfold H5Series.writeTrace
  cases hd : g.dsets <;> simp [hd]

theorem writeList_fields (g : H5Series) (ts : List Trace) (start : Nat) :
    (g.writeList ts start).attrs = g.attrs ∧
    (g.writeList ts start).traceCount = g.traceCount ∧
    (g.writeList ts start).measurementId = g.measurementId ∧
    (g.dsets = none → (g.writeList ts start).dsets = none) := by
  induction ts generalizing g start with
  | nil => simp [H5Series.writeList]
  | cons t rest ih =>
    have hw := writeTrace_fields g t start
    have hr := ih (g.writeTrace t start) (start + 1)
    unfold H5Series.writeList
    refine ⟨?_, ?_, ?_, ?_⟩
    · rw [hr.1, hw.1]
    · rw [hr.2.1, hw.2.1]
    · rw [hr.2.2.1, hw.2.2.1]
    · intro hd
      exact hr.2.2.2 (hw.2.2.2 hd)

theorem writeList_cap (g : H5Series) (ts : List Trace) (start : Nat) :
    ∀ d₀, g.dsets = some d₀ → start ≤ d₀.samples.length →
      ∃ d', (g.writeList ts start).dsets = some d' ∧
        start + ts.length ≤ d'.samples.length := by
  induction ts generalizing g start with
  | nil =>
    intro d₀ hd hle
    exact ⟨d₀, by simpa [H5Series.writeList] using hd, by simpa using hle⟩
  | cons t rest ih =>
    intro d₀ hd hle
    have hwd : (g.writeTrace t start).dsets = some (d₀.writeTrace t start) := by
      unfold H5Series.writeTrace
      rw [hd]
    have hlen : start + 1 ≤ (d₀.writeTrace t start).samples.length := by
      rcases Nat.lt_or_ge start d₀.samples.length with hlt | hge
      · rw [(DSets.writeTrace_len d₀ t start).1 hlt]
        omega
      · rw [(DSets.writeTrace_len d₀ t start).2 hge]
        omega
    obtain ⟨d', hd', hcap⟩ := ih (g.writeTrace t start) (start + 1) _ hwd hlen
    refine ⟨d', ?_, ?_⟩
    · unfold H5Series.writeList
      exact hd'
    · simp only [List.length_cons]
      omega

theorem openWFinish_parts (s : Series) (fs : FS) (fn en : String) (fb : H5File)
    (g : H5Series) (sh : Option (List Nat)) (mid : String) :
    (s.openWFinish fs fn en fb g sh mid).2 =
      { s with mode := .writing, h5 := some (fn, en), source := some (fn, en),
               sampleShape := sh } ∧
    (s.openWFinish fs fn en fb g sh mid).1 =
      setA fs fn (fb.setGroup en s.name (openWGroup s g sh mid)) :=
  ⟨rfl, rfl⟩

/-- The group written by `openWFinish` has the `measurement_id` attribute
overwritten whenever the session identifier is nonempty. -/
theorem openWGroup_mid (s : Series) (g : H5Series) (sh : Option (List Nat)) (mid : String)
    (hm : mid ≠ emptyStr) : (openWGroup s g sh mid).measurementId = some mid := by
  unfold openWGroup
  simp only [if_neg hm]
  have hW : ∀ g3 : H5Series, g3.measurementId = some mid →
      (if s.traces.isEmpty then g3.writeList s.traces ((g3.traceCount).getD 0)
       else { g3.writeList s.traces ((g3.traceCount).getD 0) with
              traceCount := some ((g3.traceCount).getD 0 + s.traces.length) }).measurementId
        = some mid := by
    intro g3 h3
    by_cases he : s.traces.isEmpty <;>
      simp [he, (writeList_fields g3 s.traces ((g3.traceCount).getD 0)).2.2.1, h3]
  refine hW _ ?_
  rcases sh with _ | shv
  · rfl
  · rcases hd : g.dsets with _ | d
    · rfl
    · rfl

theorem openForWriting_w_eq (s : Series) (fs : FS) (fn en : String)
    (em : Option (List (String × PyVal))) (mi : Option String) (ca : Bool) (su : String)
    (iy : Bool) (hm : s.mode = .memory) :
    s.openForWriting fs fn en .w em mi ca su iy =
      .ok (s.openWFinish fs fn en
        { exps := [(en, { attrs := storeAttrs [] (em.getD []), series := [] })] }
        emptyH5Series s.sampleShape (mi.getD su)) := by
  unfold Series.openForWriting
  rw [hm]
  simp

theorem openForReading_some_eq (s : Series) (fs : FS) (fn en : String) (g : H5Series)
    (hm : s.mode = .memory) (hg : lookupGroup fs fn en s.name = some g) :
    s.openForReading fs (some (fn, en)) = .ok (fs,
      { s with mode := .reading, h5 := some (fn, en), source := some (fn, en),
               traces := [], sampleShape := shapeOfGroup g s.sampleShape }) := by
  unfold Series.openForReading Series.openRCont
  rw [hm]
  simp [hg]

theorem openForReading_source_eq (s : Series) (fs : FS) (fn en : String) (g : H5Series)
    (hm : s.mode = .memory) (hs : s.source = some (fn, en))
    (hg : lookupGroup fs fn en s.name = some g) :
    s.openForReading fs none = .ok (fs,
      { s with mode := .reading, h5 := some (fn, en), source := some (fn, en),
               traces := [], sampleShape := shapeOfGroup g s.sampleShape }) := by
  unfold Series.openForReading Series.openRCont
  rw [hm, hs]
  simp [hg]

theorem addTraceCont_ok_inv {s : Series} {fs : FS} {t : Trace} {fs' : FS} {s' : Series}
    (h : s.addTraceCont fs t = .ok (fs', s')) :
    s' = { s with traces := s.traces ++ [t],
                  sampleShape := match s.sampleShape with
                    | none => some t.samples.shape
                    | some sh => some sh } := by
  simp only [Series.addTraceCont] at h
  by_cases hw : s.mode = .writing
  · rw [if_pos hw] at h
    cases hh5 : s.h5 with
    | none => rw [hh5] at h; cases h
    | some p =>
      obtain ⟨fn, en⟩ := p
      rw [hh5] at h
      dsimp only at h
      cases hg : lookupGroup fs fn en s.name with
      | none => rw [hg] at h; cases h
      | some g =>
        rw [hg] at h
        simp only [Except.ok.injEq, Prod.mk.injEq] at h
        exact h.2.symm
  · rw [if_neg hw] at h
    simp only [Except.ok.injEq, Prod.mk.injEq] at h
    exact h.2.symm

/-! ### Claim C10 -/

/-- C10: For every Series in MEMORY mode with no recorded source binding,
`open_for_reading` with no filename argument fails with an error (the
`No source available` ValueError).  The check precedes every assignment in the
source, and the embedding returns no new state on an error, so the series
keeps its MEMORY mode and its trace buffer. -/
theorem openForReading_no_source (s : Series) (fs : FS)
    (hm : s.mode = .memory) (hs : s.source = none) :
    s.openForReading fs none = .error .validationErr := by
  unfold Series.openForReading
  rw [hm, hs]
  simp

theorem openForReading_no_source_witness :
    (mkSeries snS).mode = .memory ∧ (mkSeries snS).source = none ∧
    (mkSeries snS).openForReading [] none = .error .validationErr :=
  ⟨rfl, rfl, openForReading_no_source (mkSeries snS) [] rfl rfl⟩

/-! ### Claim C3 -/

/-- C3 counterexample: a series reaches MEMORY mode with `_sample_shape`
established as `[2]` (via a read session) and an empty buffer; adding a trace
of shape `[3]` then succeeds — no ValidationError — and the trace is buffered,
contradicting the claim that `add_trace` validates against the established
`sample_shape`. -/
theorem addTrace_no_validation_cex :
    c3Pipeline = .ok (fsOld,
      { name := snS, traces := [trShape3], metadata := [], mode := .memory,
        h5 := none, source := some (fnF, expE), sampleShape := some [2] }) ∧
    trShape3.samples.shape ≠ [2] := by
  exact ⟨rfl, by decide⟩

/-- C3 (amended): `add_trace` validates the new trace's shape against the
first buffered trace, not against `_sample_shape`: when the buffer is
nonempty, a mismatched shape fails with ValidationError (raised before the
append, so the buffer and trace count are unchanged); when `_sample_shape` is
unset it is established from the added trace.  When the buffer is empty no
shape validation occurs, even if `_sample_shape` is established. -/
theorem addTrace_shape_validation :
    (∀ (s : Series) (fs : FS) (t t0 : Trace) (rest : List Trace),
      s.mode ≠ .reading → s.traces = t0 :: rest →
      t.samples.shape ≠ t0.samples.shape →
      s.addTrace fs t = .error .validationErr) ∧
    (∀ (s : Series) (fs : FS) (t : Trace) (fs' : FS) (s' : Series),
      s.sampleShape = none → s.addTrace fs t = .ok (fs', s') →
      s'.sampleShape = some t.samples.shape ∧ s'.traces = s.traces ++ [t]) := by
  constructor
  · intro s fs t t0 rest hm htr hsh
    unfold Series.addTrace
    rw [if_neg hm, htr]
    simp [hsh]
  · intro s fs t fs' s' hnone hOk
    unfold Series.addTrace at hOk
    by_cases hr : s.mode = .reading
    · rw [if_pos hr] at hOk
      cases hOk
    · rw [if_neg hr] at hOk
      cases htr : s.traces with
      | nil =>
        rw [htr] at hOk
        dsimp only at hOk
        have := addTraceCont_ok_inv hOk
        subst this
        rw [hnone]
        simp [htr]
      | cons t0 rest =>
        rw [htr] at hOk
        dsimp only at hOk
        by_cases hsh : t.samples.shape ≠ t0.samples.shape
        · rw [if_pos hsh] at hOk
          cases hOk
        · rw [if_neg hsh] at hOk
          have := addTraceCont_ok_inv hOk
          subst this
          rw [hnone]
          simp [htr]

theorem addTrace_shape_validation_witness :
    ((mkSeries snS).mode ≠ .reading ∧
     ({ mkSeries snS with traces := [trA] }).traces = trA :: [] ∧
     trShape3.samples.shape ≠ trA.samples.shape ∧
     ({ mkSeries snS with traces := [trA] }).addTrace [] trShape3 =
       .error .validationErr) ∧
    ((mkSeries snS).sampleShape = none ∧
     (mkSeries snS).addTrace [] trA =
       .ok ([], { mkSeries snS with traces := [trA], sampleShape := some [2] }) ∧
     ({ mkSeries snS with traces := [trA], sampleShape := some [2] }).sampleShape =
       some trA.samples.shape) := by
  refine ⟨⟨by decide, rfl, by decide, ?_⟩, by decide, rfl, ?_⟩
  · exact addTrace_shape_validation.1 { mkSeries snS with traces := [trA] } [] trShape3 trA []
      (by decide) rfl (by decide)
  · exact (addTrace_shape_validation.2 (mkSeries snS) [] trA []
      { mkSeries snS with traces := [trA], sampleShape := some [2] } rfl rfl).1

/-! ### Claim C7 -/

/-- C7 counterexample: from a WRITING session whose datasets were
pre-allocated (capacity 1000) but in which zero traces were persisted,
`close_writing` transitions to MEMORY but leaves the datasets at capacity
1000 instead of resizing them to the persisted trace count 0: the trim is
skipped whenever the count is zero. -/
theorem closeWriting_no_trim_cex :
    c7Pipeline.map (fun p =>
      ((lookupGroup p.1 fnG expE snS).map
        (fun g => (g.traceCount, g.dsets.map (fun d => d.samples.length))), p.2.mode)) =
      .ok (some (some 0, some 1000), .memory) ∧ (1000 : Nat) ≠ 0 := by
  exact ⟨rfl, by decide⟩

/-- C7 (amended): `close_writing` is a no-op in any mode other than WRITING;
in WRITING mode it always releases the backend binding and transitions to
MEMORY, and it resizes the samples dataset and all four annotation datasets
to exactly the persisted trace count only when that count is positive (and a
samples dataset exists); with a zero count any allocated datasets keep their
capacity. -/
theorem closeWriting_spec :
    (∀ (s : Series) (fs : FS), s.mode ≠ .writing → s.closeWriting fs = (fs, s)) ∧
    (∀ (s : Series) (fs : FS), s.mode = .writing →
      (s.closeWriting fs).2 = { s with h5 := none, mode := .memory }) ∧
    (∀ (s : Series) (fs : FS) (fn en : String) (g : H5Series) (d : DSets) (n : Nat),
      s.mode = .writing → s.h5 = some (fn, en) → lookupGroup fs fn en s.name = some g →
      g.traceCount = some n → 0 < n → g.dsets = some d →
      ∃ g' d', lookupGroup (s.closeWriting fs).1 fn en s.name = some g' ∧
        g'.traceCount = some n ∧ g'.dsets = some d' ∧
        d'.samples.length = n ∧ d'.timestamps.length = n ∧ d'.stimuli.length = n ∧
        d'.responses.length = n ∧ d'.keys.length = n) := by
  refine ⟨?_, ?_, ?_⟩
  · intro s fs hm
    unfold Series.closeWriting
    rw [if_neg hm]
  · intro s fs hm
    unfold Series.closeWriting
    rw [if_pos hm]
    cases s.h5 with
    | none => rfl
    | some p =>
      obtain ⟨fn, en⟩ := p
      dsimp only
      cases lookupGroup fs fn en s.name <;> rfl
  · intro s fs fn en g d n hm hh5 hg hc hpos hd
    unfold Series.closeWriting
    rw [if_pos hm, hh5]
    dsimp only
    rw [hg]
    dsimp only
    rw [hc, hd]
    simp only [Option.getD_some, if_pos hpos]
    refine ⟨{ g with traceCount := some n, dsets := some (d.resizeAll n) }, d.resizeAll n,
      lookupGroup_modify_self _ hg, rfl, rfl, ?_, ?_, ?_, ?_, ?_⟩
    · exact length_resizeL _ _ _
    · exact length_resizeL _ _ _
    · exact length_resizeL _ _ _
    · exact length_resizeL _ _ _
    · exact length_resizeL _ _ _

theorem closeWriting_spec_witness :
    ((mkSeries snS).mode ≠ .writing ∧ (mkSeries snS).closeWriting [] = ([], mkSeries snS)) := by
  exact ⟨by decide, closeWriting_spec.1 (mkSeries snS) [] (by decide)⟩

/-! ### Claim C4 -/

/-- C4: appending (`mode='a'`) to an existing series with prior traces whose
recorded session identifier differs from the caller's identifier fails with a
SafetyError naming both identifiers when `confirm_append` is true, and
proceeds — overwriting the recorded identifier — when `confirm_append` is
false. -/
theorem openForWriting_append_safety :
    ∀ (s : Series) (fs : FS) (fn en : String) (file : H5File) (eg : H5Exp) (g : H5Series)
      (n : Nat) (e m : String) (em : Option (List (String × PyVal))) (su : String)
      (iy : Bool),
      s.mode = .memory → lookupA fs fn = some file → lookupA file.exps en = some eg →
      lookupA eg.series s.name = some g → g.traceCount = some n → 0 < n →
      g.measurementId = some e → e ≠ emptyStr → m ≠ emptyStr → m ≠ e →
      (s.openForWriting fs fn en .a em (some m) true su iy = .error (.safetyErr e m)) ∧
      (∃ fs' s', s.openForWriting fs fn en .a em (some m) false su iy = .ok (fs', s') ∧
        ∃ g', lookupGroup fs' fn en s.name = some g' ∧ g'.measurementId = some m) := by
  intro s fs fn en file eg g n e m em su iy hm hfile heg hg hc hpos hmid he hmne hne
  have hmm : ¬ s.mode ≠ SeriesMode.memory := by simp [hm]
  have hem : ¬ e = m := fun hh => hne hh.symm
  have hsafe : Series.verifyAppendSafety g m iy = .error (.safetyErr e m) := by
    unfold Series.verifyAppendSafety
    rw [hmid]
    simp [truthyS, he, hmne, hem]
  constructor
  · unfold Series.openForWriting
    rw [if_neg hmm, hfile]
    dsimp only
    rw [heg]
    dsimp only
    rw [hg]
    dsimp only
    rw [hc]
    simp only [Option.getD_some]
    rw [if_pos ⟨hpos, trivial⟩, hsafe]
  · have heq : s.openForWriting fs fn en .a em (some m) false su iy =
        .ok (s.openWFinish fs fn en file g (shapeOfGroup g s.sampleShape) m) := by
      unfold Series.openForWriting
      rw [if_neg hmm, hfile]
      dsimp only
      rw [heg]
      dsimp only
      rw [hg]
      dsimp only
      rw [hc]
      simp only [Option.getD_some]
      rw [if_neg (by simp)]
    refine ⟨(s.openWFinish fs fn en file g (shapeOfGroup g s.sampleShape) m).1,
      (s.openWFinish fs fn en file g (shapeOfGroup g s.sampleShape) m).2, by rw [heq],
      openWGroup s g (shapeOfGroup g s.sampleShape) m, ?_,
      openWGroup_mid s g _ m hmne⟩
    exact lookupGroup_setA_setGroup fs fn en s.name file
      (openWGroup s g (shapeOfGroup g s.sampleShape) m)

theorem openForWriting_append_safety_witness :
    ((mkSeries snS).openForWriting fsMid fnF expE .a none (some sidB) true sidA false =
       .error (.safetyErr sidA sidB)) ∧
    (∃ fs' s',
      (mkSeries snS).openForWriting fsMid fnF expE .a none (some sidB) false sidA false =
        .ok (fs', s') ∧
      ∃ g', lookupGroup fs' fnF expE (mkSeries snS).name = some g' ∧
        g'.measurementId = some sidB) :=
  openForWriting_append_safety (mkSeries snS) fsMid fnF expE fileMid egMid gMid 1 sidA sidB
    none sidA false rfl rfl rfl rfl rfl (by decide) rfl (by decide) (by decide) (by decide)

/-! ### Claim C2 -/

theorem closeWriting_fs_lookup {s : Series} {fs : FS} {fn en : String} {g₀ : H5Series}
    (hm : s.mode = .writing) (hh5 : s.h5 = some (fn, en))
    (hg : lookupGroup fs fn en s.name = some g₀) :
    ∃ g₂, lookupGroup (s.closeWriting fs).1 fn en s.name = some g₂ := by
  unfold Series.closeWriting
  rw [if_pos hm, hh5]
  dsimp only
  rw [hg]
  dsimp only
  exact ⟨_, lookupGroup_modify_self _ hg⟩

/-- C2: every state-machine operation invoked in the wrong mode —
`open_for_writing` or `open_for_reading` outside MEMORY, `add_trace` in
READING — fails with a StateError; those checks are the first statement of
each method, before any assignment, and the embedding returns no new state on
an error, so mode, trace buffer and backend binding are unchanged.  From
MEMORY, `open_for_reading` (on an existing group), `close_reading`,
`open_for_writing` succeed in sequence, as do `open_for_writing` (fresh
target), `close_writing`, `open_for_reading` (recorded source). -/
theorem wrong_mode_errors_and_legal_cycles :
    (∀ (s : Series) (fs : FS) (fn en : String) (wm : WMode)
       (em : Option (List (String × PyVal))) (mi : Option String) (ca : Bool)
       (su : String) (iy : Bool), s.mode ≠ .memory →
       s.openForWriting fs fn en wm em mi ca su iy = .error .stateErr) ∧
    (∀ (s : Series) (fs : FS) (tgt : Option (String × String)), s.mode ≠ .memory →
       s.openForReading fs tgt = .error .stateErr) ∧
    (∀ (s : Series) (fs : FS) (t : Trace), s.mode = .reading →
       s.addTrace fs t = .error .stateErr) ∧
    (∀ (s : Series) (fs : FS) (fn en : String) (g : H5Series), s.mode = .memory →
       lookupGroup fs fn en s.name = some g →
       ∃ s₁, s.openForReading fs (some (fn, en)) = .ok (fs, s₁) ∧
         s₁.closeReading.mode = .memory ∧
         (∀ (fn' en' : String) (em : Option (List (String × PyVal))) (mi : Option String)
            (ca : Bool) (su : String) (iy : Bool), ∃ fs₂ s₂,
            s₁.closeReading.openForWriting fs fn' en' .w em mi ca su iy = .ok (fs₂, s₂))) ∧
    (∀ (s : Series) (fs : FS) (fn en : String) (em : Option (List (String × PyVal)))
       (mi : Option String) (ca : Bool) (su : String) (iy : Bool), s.mode = .memory →
       ∃ fs₁ s₁, s.openForWriting fs fn en .w em mi ca su iy = .ok (fs₁, s₁) ∧
         (s₁.closeWriting fs₁).2.mode = .memory ∧
         ∃ fs₃ s₃, (s₁.closeWriting fs₁).2.openForReading (s₁.closeWriting fs₁).1 none =
           .ok (fs₃, s₃)) := by
  refine ⟨?_, ?_, ?_, ?_, ?_⟩
  · intro s fs fn en wm em mi ca su iy hm
    unfold Series.openForWriting
    rw [if_pos hm]
  · intro s fs tgt hm
    unfold Series.openForReading
    rw [if_pos hm]
  · intro s fs t hm
    unfold Series.addTrace
    rw [if_pos hm]
  · intro s fs fn en g hm hg
    refine ⟨_, openForReading_some_eq s fs fn en g hm hg, rfl, ?_⟩
    intro fn' en' em mi ca su iy
    exact ⟨_, _, openForWriting_w_eq _ fs fn' en' em mi ca su iy rfl⟩
  · intro s fs fn en em mi ca su iy hm
    have hopen := openForWriting_w_eq s fs fn en em mi ca su iy hm
    set W := s.openWFinish fs fn en
      { exps := [(en, { attrs := storeAttrs [] (em.getD []), series := [] })] }
      emptyH5Series s.sampleShape (mi.getD su) with hW
    have hg1 : lookupGroup W.1 fn en W.2.name =
        some (openWGroup s emptyH5Series s.sampleShape (mi.getD su)) :=
      lookupGroup_setA_setGroup fs fn en s.name _ _
    refine ⟨W.1, W.2, ?_, ?_, ?_⟩
    · rw [hopen]
    · rw [closeWriting_spec.2.1 W.2 W.1 rfl]
    · obtain ⟨g₂, hg₂⟩ := @closeWriting_fs_lookup W.2 W.1 fn en _ rfl rfl hg1
      have hcw := closeWriting_spec.2.1 W.2 W.1 rfl
      rw [show W.2.name = (W.2.closeWriting W.1).2.name by rw [hcw]] at hg₂
      have hr := openForReading_source_eq (W.2.closeWriting W.1).2 (W.2.closeWriting W.1).1
        fn en g₂ (by rw [hcw]) (by rw [hcw, hW]; exact rfl) hg₂
      exact ⟨_, _, hr⟩

theorem wrong_mode_errors_witness :
    (({ mkSeries snS with mode := .reading } : Series).mode ≠ .memory ∧
     ({ mkSeries snS with mode := .reading } : Series).openForWriting [] fnF expE .w none
       none true sidA false = .error .stateErr) ∧
    (({ mkSeries snS with mode := .reading } : Series).addTrace [] trA =
       .error .stateErr) ∧
    ((mkSeries snS).mode = .memory ∧
     ∃ fs₁ s₁, (mkSeries snS).openForWriting [] fnF expE .w none none true sidA false =
       .ok (fs₁, s₁) ∧ (s₁.closeWriting fs₁).2.mode = .memory ∧
       ∃ fs₃ s₃, (s₁.closeWriting fs₁).2.openForReading (s₁.closeWriting fs₁).1 none =
         .ok (fs₃, s₃)) := by
  refine ⟨⟨by decide, ?_⟩, ?_, by decide, ?_⟩
  · exact wrong_mode_errors_and_legal_cycles.1 _ [] fnF expE .w none none true sidA false
      (by decide)
  · exact wrong_mode_errors_and_legal_cycles.2.2.1 _ [] trA rfl
  · exact wrong_mode_errors_and_legal_cycles.2.2.2.2 (mkSeries snS) [] fnF expE none none
      true sidA false rfl

/-! ### Claim C8 -/

theorem writeBump_cap (g1 : H5Series) (t : Trace) :
    capInv { g1.writeTrace t ((g1.traceCount).getD 0) with
             traceCount := some ((g1.traceCount).getD 0 + 1) } := by
  intro d hd
  have hd' : (g1.writeTrace t ((g1.traceCount).getD 0)).dsets = some d := hd
  cases hg : g1.dsets with
  | none =>
    rw [(writeTrace_fields g1 t _).2.2.2 hg] at hd'
    cases hd'
  | some d₀ =>
    have heq : (g1.writeTrace t ((g1.traceCount).getD 0)).dsets
        = some (d₀.writeTrace t ((g1.traceCount).getD 0)) := by
      unfold H5Series.writeTrace
      rw [hg]
    rw [heq] at hd'
    injection hd' with hd''
    subst hd''
    show (g1.traceCount).getD 0 + 1 ≤ _
    rcases Nat.lt_or_ge ((g1.traceCount).getD 0) d₀.samples.length with hlt | hge
    · rw [(DSets.writeTrace_len d₀ t _).1 hlt]
      omega
    · rw [(DSets.writeTrace_len d₀ t _).2 hge]
      omega

theorem addTraceGroup_cap (g : H5Series) (t : Trace) (n : Nat) (sh : Option (List Nat)) :
    capInv (addTraceGroup g t n sh) := by
  unfold addTraceGroup
  exact writeBump_cap _ t

theorem addTrace_writing_fs {s : Series} {fs : FS} {t : Trace} {fs' : FS} {s' : Series}
    {fn en : String} (hw : s.mode = .writing) (hh5 : s.h5 = some (fn, en))
    (h : s.addTrace fs t = .ok (fs', s')) :
    ∃ g, lookupGroup fs fn en s.name = some g ∧
      fs' = modifyGroupFS fs fn en s.name
        (addTraceGroup g t (s.traces ++ [t]).length
          (match s.sampleShape with
           | none => some t.samples.shape
           | some sh => some sh)) := by
  have hnr : ¬ s.mode = SeriesMode.reading := by rw [hw]; intro hh; cases hh
  unfold Series.addTrace at h
  rw [if_neg hnr] at h
  have hcont : s.addTraceCont fs t = .ok (fs', s') := by
    cases htr : s.traces with
    | nil =>
      rw [htr] at h
      exact h
    | cons t0 rest =>
      rw [htr] at h
      dsimp only at h
      by_cases hshp : t.samples.shape ≠ t0.samples.shape
      · rw [if_pos hshp] at h
        cases h
      · rw [if_neg hshp] at h
        exact h
  unfold Series.addTraceCont at hcont
  rw [if_pos hw, hh5] at hcont
  dsimp only at hcont
  cases hg : lookupGroup fs fn en s.name with
  | none =>
    rw [hg] at hcont
    cases hcont
  | some g =>
    rw [hg] at hcont
    simp only [Except.ok.injEq, Prod.mk.injEq] at hcont
    exact ⟨g, rfl, hcont.1.symm⟩

theorem shapeOfGroup_isSome (g : H5Series) {x : Option (List Nat)} (hx : x.isSome) :
    (shapeOfGroup g x).isSome := by
  unfold shapeOfGroup
  cases g.dsets with
  | none => exact hx
  | some d =>
    dsimp only
    by_cases h : 0 < d.samples.length
    · rw [if_pos h]
      rfl
    · rw [if_neg h]
      exact hx

theorem openWGroup_cap (s : Series) (g : H5Series) (sh : Option (List Nat)) (mid : String)
    (hg : capInv g) (hsh : s.traces ≠ [] → (sh.isSome ∨ g.dsets.isSome)) :
    capInv (openWGroup s g sh mid) := by
  unfold openWGroup
  have hW : ∀ g3 : H5Series,
      (∀ d₀, g3.dsets = some d₀ → (g3.traceCount).getD 0 ≤ d₀.samples.length) →
      capInv (if s.traces.isEmpty then g3.writeList s.traces ((g3.traceCount).getD 0)
              else { g3.writeList s.traces ((g3.traceCount).getD 0) with
                     traceCount := some ((g3.traceCount).getD 0 + s.traces.length) }) := by
    intro g3 h3
    by_cases he : s.traces.isEmpty
    · rw [if_pos he]
      have h0 : s.traces = [] := by
        cases htr : s.traces with
        | nil => rfl
        | cons a b => rw [htr] at he; cases he
      rw [h0]
      exact fun d hd => h3 d hd
    · rw [if_neg he]
      intro d hd
      have hd' : (g3.writeList s.traces ((g3.traceCount).getD 0)).dsets = some d := hd
      cases h0 : g3.dsets with
      | none =>
        rw [(writeList_fields g3 s.traces _).2.2.2 h0] at hd'
        cases hd'
      | some d₀ =>
        obtain ⟨d', hdd, hcap⟩ :=
          writeList_cap g3 s.traces ((g3.traceCount).getD 0) d₀ h0 (h3 d₀ h0)
        rw [hdd] at hd'
        injection hd' with hd''
        subst hd''
        simpa using hcap
  by_cases hmid : mid = emptyStr
  · simp only [if_pos hmid]
    refine hW _ ?_
    intro d₀ hd₀
    revert hd₀
    rcases sh with _ | shv
    · exact fun hd₀ => hg d₀ hd₀
    · rcases hd : g.dsets with _ | dg
      · intro hd₀
        have hd₁ : some (initDSets shv) = some d₀ := hd₀
        injection hd₁ with hh
        subst hh
        show (0 : Nat) ≤ (initDSets shv).samples.length
        simp [initDSets]
      · intro hd₀
        have hd₁ : some dg = some d₀ := hd₀
        injection hd₁ with hh
        subst hh
        exact hg dg hd
  · simp only [if_neg hmid]
    refine hW _ ?_
    intro d₀ hd₀
    revert hd₀
    rcases sh with _ | shv
    · exact fun hd₀ => hg d₀ hd₀
    · rcases hd : g.dsets with _ | dg
      · intro hd₀
        have hd₁ : some (initDSets shv) = some d₀ := hd₀
        injection hd₁ with hh
        subst hh
        show (0 : Nat) ≤ (initDSets shv).samples.length
        simp [initDSets]
      · intro hd₀
        have hd₁ : some dg = some d₀ := hd₀
        injection hd₁ with hh
        subst hh
        exact hg dg hd

theorem openWFinish_capInv (s : Series) (fs : FS) (fn en : String) (fb : H5File)
    (g : H5Series) (sh : Option (List Nat)) (mid : String) {fs' : FS} {s' : Series}
    (heq : s.openWFinish fs fn en fb g sh mid = (fs', s'))
    (hg : capInv g) (hsh : s.traces ≠ [] → (sh.isSome ∨ g.dsets.isSome)) :
    ∀ g', lookupGroup fs' fn en s.name = some g' → capInv g' := by
  intro g' hg'
  have h1 : fs' = setA fs fn (fb.setGroup en s.name (openWGroup s g sh mid)) :=
    (congrArg Prod.fst heq).symm
  rw [h1, lookupGroup_setA_setGroup] at hg'
  injection hg' with hh
  subst hh
  exact openWGroup_cap s g sh mid hg hsh

/-- C8: throughout a WRITING session, backend capacity is never smaller than
the persisted trace count — `open_for_writing` establishes the invariant (for
any target whose pre-existing group already satisfies it) and every successful
`add_trace` re-establishes it — and `_write_trace` grows the datasets only
when the capacity is exhausted, to `index + 1000`, a fixed block increment
rather than a per-trace reallocation. -/
theorem writing_capacity_invariant :
    (∀ (s : Series) (fs : FS) (t : Trace) (fs' : FS) (s' : Series) (fn en : String),
      s.mode = .writing → s.h5 = some (fn, en) → s.addTrace fs t = .ok (fs', s') →
      ∀ g', lookupGroup fs' fn en s.name = some g' → capInv g') ∧
    (∀ (d : DSets) (t : Trace) (i : Nat),
      (i < d.samples.length → (d.writeTrace t i).samples.length = d.samples.length) ∧
      (d.samples.length ≤ i → (d.writeTrace t i).samples.length = i + 1000)) ∧
    (∀ (s : Series) (fs : FS) (fn en : String) (wm : WMode)
       (em : Option (List (String × PyVal))) (mi : Option String) (ca : Bool)
       (su : String) (iy : Bool) (fs' : FS) (s' : Series),
      s.mode = .memory → (s.traces ≠ [] → s.sampleShape.isSome) →
      (∀ g₀, lookupGroup fs fn en s.name = some g₀ → capInv g₀) →
      s.openForWriting fs fn en wm em mi ca su iy = .ok (fs', s') →
      ∀ g', lookupGroup fs' fn en s.name = some g' → capInv g') := by
  refine ⟨?_, ?_, ?_⟩
  · intro s fs t fs' s' fn en hw hh5 h g' hg'
    obtain ⟨g, hg, hfs'⟩ := addTrace_writing_fs hw hh5 h
    rw [hfs', lookupGroup_modify_self _ hg] at hg'
    injection hg' with hh
    subst hh
    exact addTraceGroup_cap _ _ _ _
  · exact DSets.writeTrace_len
  · intro s fs fn en wm em mi ca su iy fs' s' hm hsh hcap hok g' hg'
    have hmm : ¬ s.mode ≠ SeriesMode.memory := by simp [hm]
    have hshE : s.traces ≠ [] → ((s.sampleShape).isSome ∨ emptyH5Series.dsets.isSome) :=
      fun hne => Or.inl (hsh hne)
    have hcapE : capInv emptyH5Series := by
      intro d hd
      cases hd
    unfold Series.openForWriting at hok
    rw [if_neg hmm] at hok
    cases wm with
    | w =>
      cases hf : lookupA fs fn with
      | none =>
        rw [hf] at hok
        dsimp only at hok
        injection hok with hh
        exact openWFinish_capInv s fs fn en _ emptyH5Series s.sampleShape (mi.getD su)
          hh hcapE hshE g' hg'
      | some file =>
        rw [hf] at hok
        dsimp only at hok
        injection hok with hh
        exact openWFinish_capInv s fs fn en _ emptyH5Series s.sampleShape (mi.getD su)
          hh hcapE hshE g' hg'
    | a =>
      cases hf : lookupA fs fn with
      | none =>
        rw [hf] at hok
        dsimp only at hok
        injection hok with hh
        exact openWFinish_capInv s fs fn en _ emptyH5Series s.sampleShape (mi.getD su)
          hh hcapE hshE g' hg'
      | some file =>
        rw [hf] at hok
        dsimp only at hok
        cases heg : lookupA file.exps en with
        | none =>
          rw [heg] at hok
          dsimp only at hok
          injection hok with hh
          exact openWFinish_capInv s fs fn en _ emptyH5Series s.sampleShape (mi.getD su)
            hh hcapE hshE g' hg'
        | some eg =>
          rw [heg] at hok
          dsimp only at hok
          cases hsg : lookupA eg.series s.name with
          | none =>
            rw [hsg] at hok
            dsimp only at hok
            injection hok with hh
            exact openWFinish_capInv s fs fn en _ emptyH5Series s.sampleShape (mi.getD su)
              hh hcapE hshE g' hg'
          | some g =>
            rw [hsg] at hok
            dsimp only at hok
            have hgg : lookupGroup fs fn en s.name = some g := by
              simp [lookupGroup, hf, heg, hsg]
            have hcapg : capInv g := hcap g hgg
            have hshg : s.traces ≠ [] →
                ((shapeOfGroup g s.sampleShape).isSome ∨ g.dsets.isSome) :=
              fun hne => Or.inl (shapeOfGroup_isSome g (hsh hne))
            by_cases hifc : 0 < (g.traceCount).getD 0 ∧ ca
            · rw [if_pos hifc] at hok
              cases hv : Series.verifyAppendSafety g (mi.getD su) iy with
              | error e =>
                rw [hv] at hok
                cases hok
              | ok u =>
                rw [hv] at hok
                dsimp only at hok
                injection hok with hh
                exact openWFinish_capInv s fs fn en _ g (shapeOfGroup g s.sampleShape)
                  (mi.getD su) hh hcapg hshg g' hg'
            · rw [if_neg hifc] at hok
              injection hok with hh
              exact openWFinish_capInv s fs fn en _ g (shapeOfGroup g s.sampleShape)
                (mi.getD su) hh hcapg hshg g' hg'

theorem writing_capacity_invariant_witness :
    (sW.mode = .writing ∧ sW.h5 = some (fnF, expE) ∧
     sW.addTrace fsMid trA =
       .ok (modifyGroupFS fsMid fnF expE sW.name
              (addTraceGroup gMid trA (sW.traces ++ [trA]).length (some trA.samples.shape)),
            { sW with traces := sW.traces ++ [trA],
                      sampleShape := some trA.samples.shape }) ∧
     (∀ g', lookupGroup
        (modifyGroupFS fsMid fnF expE sW.name
          (addTraceGroup gMid trA (sW.traces ++ [trA]).length (some trA.samples.shape)))
        fnF expE sW.name = some g' → capInv g')) ∧
    ((3 : Nat) < (initDSets [2]).samples.length →
      ((initDSets [2]).writeTrace trA 3).samples.length = (initDSets [2]).samples.length) ∧
    ((mkSeries snS).mode = .memory ∧
     (∀ g', lookupGroup
        ((mkSeries snS).openWFinish [] fnF expE
          { exps := [(expE, { attrs := storeAttrs [] (Option.getD none []), series := [] })] }
          emptyH5Series (mkSeries snS).sampleShape (Option.getD none sidA)).1
        fnF expE (mkSeries snS).name = some g' → capInv g')) := by
  refine ⟨⟨rfl, rfl, rfl, ?_⟩, ?_, rfl, ?_⟩
  · exact writing_capacity_invariant.1 sW fsMid trA _ _ fnF expE rfl rfl rfl
  · exact (writing_capacity_invariant.2.1 (initDSets [2]) trA 3).1
  · exact writing_capacity_invariant.2.2 (mkSeries snS) [] fnF expE .w none none true sidA
      false _ _ rfl (fun h => absurd rfl h) (fun g₀ hg₀ => by cases hg₀)
      (openForWriting_w_eq (mkSeries snS) [] fnF expE none none true sidA false rfl)

/-! ### Claim C9 -/

theorem find?_append_none {α : Type} (p : α → Bool) {l₁ : List α} (l₂ : List α)
    (h : l₁.find? p = none) : (l₁ ++ l₂).find? p = l₂.find? p := by
  induction l₁ with
  | nil => simp
  | cons x xs ih =>
    by_cases hx : p x
    · rw [List.find?_cons_of_pos _ hx] at h
      cases h
    · rw [List.find?_cons_of_neg _ hx] at h
      rw [List.cons_append, List.find?_cons_of_neg _ hx]
      exact ih h

theorem findSeries_append_self (e : Experiment) (name : String)
    (md : Option (List (String × PyVal))) (h : e.findSeries name = none) :
    Experiment.findSeries
      { e with series := e.series ++ [{ mkSeries name with metadata := mdUpdate [] md }] }
      name = some { mkSeries name with metadata := mdUpdate [] md } := by
  unfold Experiment.findSeries at h ⊢
  rw [show ({ e with series := e.series ++
      [{ mkSeries name with metadata := mdUpdate [] md }] } : Experiment).series =
      e.series ++ [{ mkSeries name with metadata := mdUpdate [] md }] from rfl]
  rw [find?_append_none _ _ h]
  simp [mkSeries]

/-- C9: the get-or-create accessors never fail: a present name returns the
existing entity unchanged with exactly one duplicate warning; an absent name
constructs, registers and returns a new entity seeded with the given
metadata; and a second call with the same name returns the same entity,
leaving the container unchanged. -/
theorem getOrCreate_idempotent :
    (∀ (db : TraceDB) (name : String) (md : Option (List (String × PyVal))),
      (lookupA db.experiments name = none →
        db.getOrCreateExperiment name md =
          ({ experiments := db.experiments ++
              [(name, { name := name, series := [], metadata := mdUpdate [] md })] },
           { name := name, series := [], metadata := mdUpdate [] md }, [])) ∧
      (∀ e, lookupA db.experiments name = some e →
        db.getOrCreateExperiment name md = (db, e, [.dupExperiment name]))) ∧
    (∀ (db : TraceDB) (name : String) (md md' : Option (List (String × PyVal))),
      ((db.getOrCreateExperiment name md).1).getOrCreateExperiment name md' =
        ((db.getOrCreateExperiment name md).1, (db.getOrCreateExperiment name md).2.1,
         [.dupExperiment name])) ∧
    (∀ (e : Experiment) (name : String) (md : Option (List (String × PyVal))),
      (e.findSeries name = none →
        e.getOrCreateSeries name md =
          ({ e with series := e.series ++
              [{ mkSeries name with metadata := mdUpdate [] md }] },
           { mkSeries name with metadata := mdUpdate [] md }, [])) ∧
      (∀ sx, e.findSeries name = some sx →
        e.getOrCreateSeries name md = (e, sx, [.dupSeries e.name name]))) ∧
    (∀ (e : Experiment) (name : String) (md md' : Option (List (String × PyVal))),
      ((e.getOrCreateSeries name md).1).getOrCreateSeries name md' =
        ((e.getOrCreateSeries name md).1, (e.getOrCreateSeries name md).2.1,
         [.dupSeries ((e.getOrCreateSeries name md).1).name name])) := by
  have hexp : ∀ (db : TraceDB) (name : String) (md : Option (List (String × PyVal))),
      (lookupA db.experiments name = none →
        db.getOrCreateExperiment name md =
          ({ experiments := db.experiments ++
              [(name, { name := name, series := [], metadata := mdUpdate [] md })] },
           { name := name, series := [], metadata := mdUpdate [] md }, [])) ∧
      (∀ e, lookupA db.experiments name = some e →
        db.getOrCreateExperiment name md = (db, e, [.dupExperiment name])) := by
    intro db name md
    constructor
    · intro h
      unfold TraceDB.getOrCreateExperiment
      rw [h]
    · intro e h
      unfold TraceDB.getOrCreateExperiment
      rw [h]
  have hser : ∀ (e : Experiment) (name : String) (md : Option (List (String × PyVal))),
      (e.findSeries name = none →
        e.getOrCreateSeries name md =
          ({ e with series := e.series ++
              [{ mkSeries name with metadata := mdUpdate [] md }] },
           { mkSeries name with metadata := mdUpdate [] md }, [])) ∧
      (∀ sx, e.findSeries name = some sx →
        e.getOrCreateSeries name md = (e, sx, [.dupSeries e.name name])) := by
    intro e name md
    constructor
    · intro h
      unfold Experiment.getOrCreateSeries
      rw [h]
    · intro sx h
      unfold Experiment.getOrCreateSeries
      rw [h]
  refine ⟨hexp, ?_, hser, ?_⟩
  · intro db name md md'
    cases h : lookupA db.experiments name with
    | some e =>
      rw [(hexp db name md).2 e h]
      exact (hexp db name md').2 e h
    | none =>
      rw [(hexp db name md).1 h]
      refine (hexp _ name md').2 _ ?_
      rw [show ({ experiments := db.experiments ++
          [(name, { name := name, series := [], metadata := mdUpdate [] md })] } :
          TraceDB).experiments = db.experiments ++
          [(name, { name := name, series := [], metadata := mdUpdate [] md })] from rfl]
      rw [lookupA_append_none _ h]
      simp [lookupA]
  · intro e name md md'
    cases h : e.findSeries name with
    | some sx =>
      rw [(hser e name md).2 sx h]
      exact (hser e name md').2 sx h
    | none =>
      rw [(hser e name md).1 h]
      exact (hser _ name md').2 _ (findSeries_append_self e name md h)

theorem getOrCreate_idempotent_witness :
    (lookupA (TraceDB.mk []).experiments expE = none ∧
     (TraceDB.mk []).getOrCreateExperiment expE none =
       ({ experiments := [(expE, { name := expE, series := [], metadata := mdUpdate [] none })] },
        { name := expE, series := [], metadata := mdUpdate [] none }, [])) ∧
    ((Experiment.mk expE [] []).findSeries snS = none ∧
     (Experiment.mk expE [] []).getOrCreateSeries snS none =
       ({ Experiment.mk expE [] [] with series := [{ mkSeries snS with
            metadata := mdUpdate [] none }] },
        { mkSeries snS with metadata := mdUpdate [] none }, [])) := by
  refine ⟨⟨rfl, ?_⟩, rfl, ?_⟩
  · exact (getOrCreate_idempotent.1 (TraceDB.mk []) expE none).1 rfl
  · exact (getOrCreate_idempotent.2.2.1 (Experiment.mk expE [] []) snS none).1 rfl

/-! ### Claim C1 -/

theorem addTrace_step (pre : List Trace) (shape : List Nat) (fs : FS) (s : Series)
    (t : Trace) (hInv : WInvFull pre shape fs s) (ht : t.samples.shape = shape) :
    ∃ fs' s', s.addTrace fs t = .ok (fs', s') ∧ WInvFull (pre ++ [t]) shape fs' s' := by
  obtain ⟨hname, hmode, hh5, hsrc, htr, hall, hrest⟩ := hInv
  have hnr : ¬ s.mode = SeriesMode.reading := by rw [hmode]; intro hh; cases hh
  rcases hrest with ⟨hpre, hshape, hlook⟩ | ⟨hpre, hshape, d, hlook, hcap, hdims, hcells⟩
  · -- first trace: datasets are created with capacity 1000 and the cell written at 0
    subst hpre
    have hlook' : lookupGroup fs fnF expE s.name = some emptyWGroup := by
      rw [hname]
      exact hlook
    have heq : s.addTrace fs t = .ok (modifyGroupFS fs fnF expE s.name
        (addTraceGroup emptyWGroup t 1 (some t.samples.shape)),
        { s with traces := [t], sampleShape := some t.samples.shape }) := by
      unfold Series.addTrace
      rw [if_neg hnr, htr]
      dsimp only
      unfold Series.addTraceCont
      rw [if_pos hmode, hh5]
      dsimp only
      rw [hlook']
      dsimp only
      rw [hshape, htr]
      rfl
    refine ⟨_, _, heq, hname, hmode, hh5, hsrc, rfl, ?_, Or.inr ⟨by simp, by rw [ht], ?_⟩⟩
    · intro u hu
      simp at hu
      rw [hu, ht]
    · have hwt := DSets.writeTrace_spec (initDSets t.samples.shape) t 0
        (by simp [initDSets]) (by simp [dimsOk, initDSets])
      refine ⟨(initDSets t.samples.shape).writeTrace t 0, ?_, ?_, hwt.1, ?_⟩
      · have hge : addTraceGroup emptyWGroup t 1 (some t.samples.shape) =
            wGroup ([] ++ [t]).length ((initDSets t.samples.shape).writeTrace t 0) := rfl
        rw [hname, ← hge]
        exact lookupGroup_modify_self _ hlook
      · simpa using hwt.2.2.1
      · intro i hi
        simp only [List.nil_append, List.length_singleton] at hi
        interval_cases i
        simpa using hwt.2.2.2.2
  · -- subsequent traces: the cell is written at index `pre.length`
    cases hpt : pre with
    | nil => rw [hpt] at hpre; exact absurd rfl hpre
    | cons t0 rest =>
      subst hpt
      have ht0 : t0.samples.shape = shape := hall t0 (by simp)
      have hshp : ¬ t.samples.shape ≠ t0.samples.shape := by
        rw [ht, ht0]
        simp
      have hlook' : lookupGroup fs fnF expE s.name =
          some (wGroup (t0 :: rest).length d) := by
        rw [hname]
        exact hlook
      have heq : s.addTrace fs t = .ok (modifyGroupFS fs fnF expE s.name
          (addTraceGroup (wGroup (t0 :: rest).length d) t ((t0 :: rest) ++ [t]).length
            (some shape)),
          { s with traces := (t0 :: rest) ++ [t], sampleShape := some shape }) := by
        unfold Series.addTrace
        rw [if_neg hnr, htr]
        dsimp only
        rw [if_neg hshp]
        unfold Series.addTraceCont
        rw [if_pos hmode, hh5]
        dsimp only
        rw [hlook']
        dsimp only
        rw [hshape, htr]
      have hlen1 : ¬ (((t0 :: rest) ++ [t]).length = 1 ∧
          (wGroup (t0 :: rest).length d).dsets.isNone = true) := by
        intro hc
        have := hc.2
        simp [wGroup] at this
      have hwt := DSets.writeTrace_spec d t (t0 :: rest).length hcap hdims
      have hgr : addTraceGroup (wGroup (t0 :: rest).length d) t
          ((t0 :: rest) ++ [t]).length (some shape) =
          wGroup ((t0 :: rest) ++ [t]).length (d.writeTrace t (t0 :: rest).length) := by
        unfold addTraceGroup
        rw [if_neg hlen1]
        unfold H5Series.writeTrace wGroup
        dsimp only
        simp [List.length_append]
      refine ⟨_, _, heq, hname, hmode, hh5, hsrc, rfl, ?_,
        Or.inr ⟨by simp, rfl, d.writeTrace t (t0 :: rest).length, ?_, ?_, hwt.1, ?_⟩⟩
      · intro u hu
        rw [List.mem_append] at hu
        rcases hu with hu | hu
        · exact hall u hu
        · simp at hu
          rw [hu, ht]
      · rw [hname, hgr]
        exact lookupGroup_modify_self _ hlook
      · rw [List.length_append]
        simp only [List.length_singleton]
        have := hwt.2.2.1
        omega
      · intro i hi
        rw [List.length_append, List.length_singleton] at hi
        by_cases hilt : i < (t0 :: rest).length
        · obtain ⟨p1, p2, p3, p4, p5⟩ := hwt.2.2.2.1 i hilt
          obtain ⟨c1, c2, c3, c4, c5⟩ := hcells i hilt
          have hgett : ((t0 :: rest) ++ [t])[i] = (t0 :: rest)[i] :=
            List.getElem_append_left hilt
          rw [hgett, p1, p2, p3, p4, p5]
          exact ⟨c1, c2, c3, c4, c5⟩
        · have hieq : i = (t0 :: rest).length := by omega
          subst hieq
          have hgett : ((t0 :: rest) ++ [t])[(t0 :: rest).length] = t := by
            rw [List.getElem_append_right (by omega)]
            simp
          rw [hgett]
          exact hwt.2.2.2.2

theorem addTrace_fold (rest : List Trace) (pre : List Trace) (shape : List Nat) (fs : FS)
    (s : Series) (hInv : WInvFull pre shape fs s)
    (hrest : ∀ t ∈ rest, t.samples.shape = shape) :
    ∃ fs' s', List.foldlM (fun p t => Series.addTrace p.2 p.1 t) (fs, s) rest =
      .ok (fs', s') ∧ WInvFull (pre ++ rest) shape fs' s' := by
  induction rest generalizing pre fs s with
  | nil => exact ⟨fs, s, rfl, by simpa using hInv⟩
  | cons t tl ih =>
    obtain ⟨fs₁, s₁, hstep, hInv₁⟩ := addTrace_step pre shape fs s t hInv (hrest t (by simp))
    obtain ⟨fs', s', hfold, hInv'⟩ := ih (pre ++ [t]) fs₁ s₁ hInv₁
      (fun u hu => hrest u (by simp [hu]))
    refine ⟨fs', s', ?_, by simpa using hInv'⟩
    rw [List.foldlM_cons, hstep]
    exact hfold

theorem readAll_trimmed (ts : List Trace) (d : DSets) (g : H5Series)
    (hg1 : g.traceCount = some ts.length) (hg2 : g.dsets = some (d.resizeAll ts.length))
    (hn : ts.length ≤ d.samples.length) (hdims : dimsOk d) (hcells : cellsOk d ts)
    (hgood : ∀ t ∈ ts, t.stimulus ≠ some emptyStr ∧ t.response ≠ some emptyStr ∧
      t.key ≠ some emptyStr) :
    g.readAll = ts := by
  obtain ⟨hts, hst, hre, hke⟩ := hdims
  unfold H5Series.readAll H5Series.lenR
  rw [hg1]
  dsimp only
  apply List.ext_getElem
  · simp
  · intro i h₁ h₂
    have hi : i < ts.length := by simpa using h₂
    rw [List.getElem_map, List.getElem_range]
    unfold H5Series.readTrace
    rw [hg2]
    dsimp only [DSets.resizeAll]
    obtain ⟨c1, c2, c3, c4, c5⟩ := hcells i hi
    obtain ⟨g1, g2, g3⟩ := hgood ts[i] (List.getElem_mem hi)
    rw [getD_resizeL _ _ hi (by omega), getD_resizeL _ _ hi (by omega),
      getD_resizeL _ _ hi (by omega), getD_resizeL _ _ hi (by omega),
      getD_resizeL _ _ hi (by omega)]
    rw [c1, c2, c3, c4, c5, tsDecode_tsEncode, decodeAnn_encodeAnn g1,
      decodeAnn_encodeAnn g2, decodeAnn_encodeAnn g3]

theorem finish_phase (ts : List Trace) (shape : List Nat) (fs : FS) (s : Series)
    (hInv : WInvFull ts shape fs s)
    (hgood : ∀ t ∈ ts, t.stimulus ≠ some emptyStr ∧ t.response ≠ some emptyStr ∧
      t.key ≠ some emptyStr) :
    ∃ fsR sR, (s.closeWriting fs).2.openForReading (s.closeWriting fs).1 none =
      .ok (fsR, sR) ∧ sR.toListS fsR = ts := by
  obtain ⟨hname, hmode, hh5, hsrc, htr, hall, hrest⟩ := hInv
  rcases hrest with ⟨hpre, hshape, hlook⟩ | ⟨hpre, hshape, d, hlook, hcap, hdims, hcells⟩
  · subst hpre
    have hlook' : lookupGroup fs fnF expE s.name = some emptyWGroup := by
      rw [hname]
      exact hlook
    have hcw : s.closeWriting fs = (modifyGroupFS fs fnF expE s.name emptyWGroup,
        { s with h5 := none, mode := .memory }) := by
      unfold Series.closeWriting
      rw [if_pos hmode, hh5]
      dsimp only
      rw [hlook']
      rfl
    have hlookR : lookupGroup (modifyGroupFS fs fnF expE s.name emptyWGroup) fnF expE
        s.name = some emptyWGroup := lookupGroup_modify_self _ hlook'
    have hopen := openForReading_source_eq ({ s with h5 := none, mode := .memory })
      (modifyGroupFS fs fnF expE s.name emptyWGroup) fnF expE emptyWGroup rfl hsrc hlookR
    rw [hcw]
    refine ⟨_, _, hopen, ?_⟩
    unfold Series.toListS
    rw [if_pos rfl]
    dsimp only
    rw [hlookR]
    rfl
  · have hnpos : 0 < ts.length := List.length_pos.mpr hpre
    have hlook' : lookupGroup fs fnF expE s.name = some (wGroup ts.length d) := by
      rw [hname]
      exact hlook
    have hcw : s.closeWriting fs = (modifyGroupFS fs fnF expE s.name
        { wGroup ts.length d with dsets := some (d.resizeAll ts.length) },
        { s with h5 := none, mode := .memory }) := by
      unfold Series.closeWriting
      rw [if_pos hmode, hh5]
      dsimp only
      rw [hlook']
      dsimp only [wGroup, Option.getD]
      rw [if_pos hnpos]
    have hlookR : lookupGroup (modifyGroupFS fs fnF expE s.name
        { wGroup ts.length d with dsets := some (d.resizeAll ts.length) }) fnF expE
        s.name = some { wGroup ts.length d with dsets := some (d.resizeAll ts.length) } :=
      lookupGroup_modify_self _ hlook'
    have hopen := openForReading_source_eq ({ s with h5 := none, mode := .memory })
      (modifyGroupFS fs fnF expE s.name
        { wGroup ts.length d with dsets := some (d.resizeAll ts.length) }) fnF expE
      { wGroup ts.length d with dsets := some (d.resizeAll ts.length) } rfl hsrc hlookR
    rw [hcw]
    refine ⟨_, _, hopen, ?_⟩
    unfold Series.toListS
    rw [if_pos rfl]
    dsimp only
    rw [hlookR]
    exact readAll_trimmed ts d _ rfl rfl hcap hdims hcells hgood

/-- C1 (amended): the write→read round trip returns the traces unchanged —
samples, stimulus, response, key and timestamp — for every sequence of traces
sharing one sample shape whose text annotations are each absent or nonempty;
timestamps round-trip exactly at the precision of their text encoding.  (The
empty-string annotation is the one exception, see the counterexample: it is
encoded as the absence sentinel `""` and decodes to an absent annotation.) -/
theorem series_roundtrip_ok (shape : List Nat) (ts : List Trace)
    (hshape : ∀ t ∈ ts, t.samples.shape = shape)
    (hgood : ∀ t ∈ ts, t.stimulus ≠ some emptyStr ∧ t.response ≠ some emptyStr ∧
      t.key ≠ some emptyStr) :
    seriesRoundtrip ts = .ok ts := by
  have hbind : ∀ {α β : Type} (a : α) (f : α → Except Err β), (Except.ok a >>= f) = f a :=
    fun a f => rfl
  have hbase : WInvFull [] shape fs0c s0c :=
    ⟨rfl, rfl, rfl, rfl, rfl, by simp, Or.inl ⟨rfl, rfl, rfl⟩⟩
  obtain ⟨fs', s', hfold, hInv⟩ := addTrace_fold ts [] shape fs0c s0c hbase hshape
  rw [List.nil_append] at hInv
  obtain ⟨fsR, sR, hopenR, hlist⟩ := finish_phase ts shape fs' s' hInv hgood
  unfold seriesRoundtrip
  dsimp only
  rw [show (mkSeries snS).openForWriting [] fnF expE .w none none true sidA false
      = .ok (fs0c, s0c) from rfl, hbind]
  dsimp only
  rw [hfold, hbind]
  dsimp only
  rw [show s'.closeWriting fs' = ((s'.closeWriting fs').1, (s'.closeWriting fs').2)
      from rfl]
  dsimp only
  rw [hopenR, hbind]
  dsimp only
  rw [hlist]

/-- C1 counterexample: a trace whose stimulus is the empty string does not
round-trip: the writer encodes any falsy annotation as the empty string, and
the reader decodes the empty string to an absent annotation, so the returned
tuple differs from the written one. -/
theorem roundtrip_empty_annotation_cex :
    (seriesRoundtrip [trBadStim]).map (fun l => l.map Trace.stimulus) = .ok [none] ∧
    trBadStim.stimulus = some emptyStr ∧
    seriesRoundtrip [trBadStim] ≠ .ok [trBadStim] := by
  have h1 : (seriesRoundtrip [trBadStim]).map (fun l => l.map Trace.stimulus) =
      .ok [none] := rfl
  refine ⟨h1, rfl, ?_⟩
  intro h
  rw [h] at h1
  simp [Except.map, trBadStim, trA, emptyStr] at h1

theorem series_roundtrip_ok_witness :
    (∀ t ∈ [trA, trB], t.samples.shape = [2]) ∧
    (∀ t ∈ [trA, trB], t.stimulus ≠ some emptyStr ∧ t.response ≠ some emptyStr ∧
      t.key ≠ some emptyStr) ∧
    seriesRoundtrip [trA, trB] = .ok [trA, trB] :=
  ⟨by decide, by decide, series_roundtrip_ok [2] [trA, trB] (by decide) (by decide)⟩

/-! ### Claim C6 -/

/-- C6: `load_hdf5` reads the full experiment/series hierarchy and all scalar
metadata eagerly but no trace data: every returned series is in MEMORY mode
with an empty buffer, no open binding, an unset sample shape, and a recorded
source pointing at the file; loading the same file with all datasets and
reserved attributes erased yields the identical database. -/
theorem loadHdf5_lazy (fs : FS) (filename : String) (file : H5File)
    (hf : lookupA fs filename = some file) :
    ∃ db, TraceDB.loadHdf5 fs filename = .ok db ∧
      List.Forall₂ (fun (q : String × Experiment) (p : String × H5Exp) =>
        q.1 = p.1 ∧ q.2.name = p.1 ∧ q.2.metadata = p.2.attrs ∧
        List.Forall₂ (fun (sr : Series) (sp : String × H5Series) =>
          sr.name = sp.1 ∧ sr.metadata = sp.2.attrs ∧ sr.traces = [] ∧
          sr.mode = .memory ∧ sr.h5 = none ∧ sr.source = some (filename, p.1) ∧
          sr.sampleShape = none) q.2.series p.2.series)
        db.experiments file.exps ∧
      TraceDB.loadHdf5 (setA fs filename file.stripData) filename = .ok db := by
  refine ⟨_, by unfold TraceDB.loadHdf5; rw [hf], ?_, ?_⟩
  · rw [List.forall₂_map_left_iff]
    refine List.forall₂_same.mpr ?_
    intro p hp
    refine ⟨rfl, rfl, rfl, ?_⟩
    rw [List.forall₂_map_left_iff]
    refine List.forall₂_same.mpr ?_
    intro q hq
    exact ⟨rfl, rfl, rfl, rfl, rfl, rfl, rfl⟩
  · unfold TraceDB.loadHdf5
    rw [lookupA_setA_self]
    unfold H5File.stripData
    simp only [Except.ok.injEq, TraceDB.mk.injEq, List.map_map]
    refine List.map_congr_left ?_
    intro p hp
    simp [Function.comp, List.map_map]

theorem loadHdf5_lazy_witness :
    lookupA fsMid fnF = some fileMid ∧
    ∃ db, TraceDB.loadHdf5 fsMid fnF = .ok db ∧
      List.Forall₂ (fun (q : String × Experiment) (p : String × H5Exp) =>
        q.1 = p.1 ∧ q.2.name = p.1 ∧ q.2.metadata = p.2.attrs ∧
        List.Forall₂ (fun (sr : Series) (sp : String × H5Series) =>
          sr.name = sp.1 ∧ sr.metadata = sp.2.attrs ∧ sr.traces = [] ∧
          sr.mode = .memory ∧ sr.h5 = none ∧ sr.source = some (fnF, p.1) ∧
          sr.sampleShape = none) q.2.series p.2.series)
        db.experiments fileMid.exps ∧
      TraceDB.loadHdf5 (setA fsMid fnF fileMid.stripData) fnF = .ok db :=
  ⟨rfl, loadHdf5_lazy fsMid fnF fileMid rfl⟩

/-! ### Claim C5 -/

theorem lookupA_mem {β : Type} {l : List (String × β)} {k : String} {v : β}
    (h : lookupA l k = some v) : (k, v) ∈ l := by
  induction l with
  | nil => simp [lookupA] at h
  | cons hd tl ih =>
    obtain ⟨k₀, v₀⟩ := hd
    by_cases h₀ : k₀ = k
    · subst h₀
      rw [lookupA, if_pos rfl] at h
      injection h with h
      subst h
      exact List.mem_cons_self _ _
    · rw [lookupA, if_neg h₀] at h
      exact List.mem_cons_of_mem _ (ih h)

theorem map_fst_map_pair {β γ : Type} (l : List (String × β)) (F : String × β → γ) :
    (l.map (fun p => (p.1, F p))).map Prod.fst = l.map Prod.fst := by
  rw [List.map_map]
  rfl

theorem lookupA_map_pair {β γ : Type} {l : List (String × β)} (F : String × β → γ)
    {p : String × β} (hN : (l.map Prod.fst).Nodup) (hm : p ∈ l) :
    lookupA (l.map (fun r => (r.1, F r))) p.1 = some (F p) := by
  have hN' : ((l.map (fun r => (r.1, F r))).map Prod.fst).Nodup := by
    rw [map_fst_map_pair]
    exact hN
  exact lookupA_of_mem_nodup hN' (List.mem_map_of_mem _ hm)

theorem lookupA_map_pair_none {β γ : Type} (l : List (String × β)) (F : String × β → γ)
    (k : String) :
    lookupA (l.map (fun r => (r.1, F r))) k = none ↔ lookupA l k = none := by
  rw [lookupA_eq_none_iff, lookupA_eq_none_iff, map_fst_map_pair]

theorem setA_eq_map {β : Type} {l : List (String × β)} {k : String} {v₀ : β}
    (hN : (l.map Prod.fst).Nodup) (h : lookupA l k = some v₀) (v : β) :
    setA l k v = l.map (fun q => if q.1 = k then (k, v) else q) := by
  induction l with
  | nil => simp [lookupA] at h
  | cons hd tl ih =>
    obtain ⟨k₀, v'⟩ := hd
    by_cases h₀ : k₀ = k
    · subst h₀
      rw [setA, if_pos rfl, List.map_cons]
      dsimp only
      rw [if_pos rfl]
      have hnin : ¬ k₀ ∈ tl.map Prod.fst := (List.nodup_cons.mp hN).1
      have hcongr : ∀ q ∈ tl, (if q.1 = k₀ then ((k₀, v) : String × β) else q) = q := by
        intro q hq
        have hne : q.1 ≠ k₀ := fun he => hnin (he ▸ List.mem_map_of_mem Prod.fst hq)
        rw [if_neg hne]
      rw [List.map_congr_left hcongr, List.map_id']
    · rw [setA, if_neg h₀, List.map_cons]
      dsimp only
      rw [if_neg h₀]
      have h' : lookupA tl k = some v₀ := by
        rw [lookupA, if_neg h₀] at h
        exact h
      rw [ih (List.nodup_cons.mp hN).2 h']

theorem mapM_ok_of_forall {α β γ : Type} (f : β → Except Err γ) (g : α → β) (h : α → γ) :
    ∀ l : List α, (∀ a ∈ l, f (g a) = .ok (h a)) → (l.map g).mapM f = .ok (l.map h)
  | [], _ => rfl
  | a :: l, H => by
    rw [List.map_cons, List.mapM_cons, H a (List.mem_cons_self a l),
      mapM_ok_of_forall f g h l (fun b hb => H b (List.mem_cons_of_mem a hb))]
    rfl

theorem materializeSeriesLoaded (fs : FS) (fn en : String) (q : String × H5Series)
    (hg : lookupGroup fs fn en q.1 = some q.2) :
    materializeSeries fs
      { name := q.1, traces := [], metadata := q.2.attrs, mode := .memory,
        h5 := none, source := some (fn, en), sampleShape := none }
      = .ok (matSeries q) := by
  unfold materializeSeries
  rw [if_pos ⟨rfl, rfl⟩]
  rw [openForReading_source_eq _ fs fn en q.2 rfl rfl hg]
  dsimp only
  unfold Series.toListS Series.closeReading
  rw [if_pos rfl]
  dsimp only
  rw [hg, if_pos rfl]
  rfl

theorem materializeExpLoaded (fs : FS) (filename : String) (file : H5File)
    (hf : lookupA fs filename = some file) (hE : (file.exps.map Prod.fst).Nodup)
    (p : String × H5Exp) (hp : p ∈ file.exps)
    (hS : (p.2.series.map Prod.fst).Nodup) :
    materializeExp fs
      { name := p.1, metadata := p.2.attrs,
        series := p.2.series.map (fun q =>
          { name := q.1, traces := [], metadata := q.2.attrs, mode := .memory,
            h5 := none, source := some (filename, p.1), sampleShape := none }) }
      = .ok (matExp p) := by
  have hall : ∀ q ∈ p.2.series,
      materializeSeries fs
        { name := q.1, traces := [], metadata := q.2.attrs, mode := .memory,
          h5 := none, source := some (filename, p.1), sampleShape := none }
        = .ok (matSeries q) := by
    intro q hq
    have hgq : lookupGroup fs filename p.1 q.1 = some q.2 := by
      unfold lookupGroup
      rw [hf]
      simp [lookupA_of_mem_nodup hE hp, lookupA_of_mem_nodup hS hq]
    exact materializeSeriesLoaded fs filename p.1 q hgq
  unfold materializeExp
  dsimp only
  rw [mapM_ok_of_forall (materializeSeries fs) _ matSeries p.2.series hall]
  rfl

theorem materializeDBLoaded (fs : FS) (filename : String) (file : H5File)
    (hf : lookupA fs filename = some file) (hE : (file.exps.map Prod.fst).Nodup)
    (hS : ∀ p ∈ file.exps, (p.2.series.map Prod.fst).Nodup) :
    materializeDB fs
      { experiments := file.exps.map (fun p =>
          (p.1, { name := p.1, metadata := p.2.attrs,
                  series := p.2.series.map (fun q =>
                    { name := q.1, traces := [], metadata := q.2.attrs, mode := .memory,
                      h5 := none, source := some (filename, p.1),
                      sampleShape := none }) })) }
      = .ok (file.exps.map (fun p => (p.1, matExp p))) := by
  unfold materializeDB
  dsimp only
  refine mapM_ok_of_forall _ _ (fun p => (p.1, matExp p)) file.exps ?_
  intro p hp
  rw [materializeExpLoaded fs filename file hf hE p hp (hS p hp)]
  rfl

theorem mergeFoldAux (names : List String) (en : String) :
    ∀ (l : List Series) (e : Experiment) (w : List Warning),
      l.foldl (fun acc s =>
          if s.name ∈ names then (acc.1, acc.2 ++ [Warning.saveSkip en s.name])
          else ({ acc.1 with series := acc.1.series ++ [s] }, acc.2)) (e, w)
      = ({ e with series := (e.series ++ l.filter (fun sr => !decide (sr.name ∈ names))) },
         w ++ (l.filter (fun sr => decide (sr.name ∈ names))).map
            (fun sr => Warning.saveSkip en sr.name))
  | [], e, w => by simp
  | s :: l, e, w => by
    rw [List.foldl_cons]
    by_cases hs : s.name ∈ names
    · rw [if_pos hs]
      rw [mergeFoldAux names en l e (w ++ [Warning.saveSkip en s.name])]
      rw [List.filter_cons_of_neg (by simp [hs]), List.filter_cons_of_pos (by simp [hs])]
      simp
    · rw [if_neg hs]
      rw [mergeFoldAux names en l { e with series := e.series ++ [s] } w]
      rw [List.filter_cons_of_pos (by simp [hs]), List.filter_cons_of_neg (by simp [hs])]
      simp

theorem mergeExp_eq (en : String) (ex cur : Experiment) :
    mergeExp en ex cur =
      ({ ex with series := (ex.series ++ cur.series.filter
            (fun sr => !decide (sr.name ∈ ex.series.map (fun s => s.name)))) },
       (cur.series.filter
            (fun sr => decide (sr.name ∈ ex.series.map (fun s => s.name)))).map
          (fun sr => Warning.saveSkip en sr.name)) := by
  exact mergeFoldAux (ex.series.map (fun s => Series.name s)) en cur.series ex []

theorem lookupA_cons_self {β : Type} (p : String × β) (l : List (String × β)) :
    lookupA (p :: l) p.1 = some p.2 := by
  obtain ⟨k, v⟩ := p
  simp [lookupA]

theorem lookupA_cons_ne {β : Type} (p : String × β) (l : List (String × β)) {k : String}
    (h : p.1 ≠ k) : lookupA (p :: l) k = lookupA l k := by
  obtain ⟨k', v⟩ := p
  simp only at h
  simp [lookupA, h]

theorem mergeUpdateAux :
    ∀ (cur E : List (String × Experiment)) (W : List Warning),
      (E.map Prod.fst).Nodup → (cur.map Prod.fst).Nodup →
      cur.foldl (fun acc p =>
          match lookupA acc.1 p.1 with
          | some ex =>
            (setA acc.1 p.1 (mergeExp p.1 ex p.2).1, acc.2 ++ (mergeExp p.1 ex p.2).2)
          | none => (acc.1 ++ [p], acc.2)) (E, W)
      = (E.map (fun r => (r.1,
            match lookupA cur r.1 with
            | some e => (mergeExp r.1 r.2 e).1
            | none => r.2))
          ++ cur.filter (fun q => (lookupA E q.1).isNone),
         W ++ (cur.map (fun q =>
            match lookupA E q.1 with
            | some ex => (mergeExp q.1 ex q.2).2
            | none => ([] : List Warning))).flatten)
  | [], E, W, _, _ => by simp [lookupA]
  | p :: cur, E, W, hE, hcur => by
    have hcur2 : (p.1 :: cur.map Prod.fst).Nodup := by simpa using hcur
    have hpnin : ¬ p.1 ∈ cur.map Prod.fst := (List.nodup_cons.mp hcur2).1
    have hcur' : (cur.map Prod.fst).Nodup := (List.nodup_cons.mp hcur2).2
    have hcurnone : lookupA cur p.1 = none := (lookupA_eq_none_iff _ _).mpr hpnin
    rw [List.foldl_cons]
    dsimp only
    cases hx : lookupA E p.1 with
    | some ex =>
      dsimp only
      have hE' : ((setA E p.1 (mergeExp p.1 ex p.2).1).map Prod.fst).Nodup := by
        rw [setA_map_fst _ hx]
        exact hE
      rw [mergeUpdateAux cur (setA E p.1 (mergeExp p.1 ex p.2).1)
        (W ++ (mergeExp p.1 ex p.2).2) hE' hcur']
      simp only [Prod.mk.injEq]
      constructor
      · have hfil : cur.filter
            (fun q => (lookupA (setA E p.1 (mergeExp p.1 ex p.2).1) q.1).isNone)
            = cur.filter (fun q => (lookupA E q.1).isNone) := by
          refine List.filter_congr ?_
          intro q hq
          have hne : p.1 ≠ q.1 := fun he => hpnin (he ▸ List.mem_map_of_mem Prod.fst hq)
          rw [lookupA_setA_ne E _ hne]
        rw [hfil, List.filter_cons_of_neg (by simp [hx])]
        congr 1
        rw [setA_eq_map hE hx, List.map_map]
        refine List.map_congr_left ?_
        intro r hr
        dsimp only [Function.comp]
        by_cases hrp : r.1 = p.1
        · rw [if_pos hrp]
          dsimp only
          rw [hcurnone]
          dsimp only
          have hr2 : r.2 = ex := by
            have hlr := lookupA_of_mem_nodup hE hr
            rw [hrp, hx] at hlr
            injection hlr with hlr
            exact hlr.symm
          have hcons : lookupA (p :: cur) r.1 = some p.2 := by
            rw [hrp]
            exact lookupA_cons_self p cur
          rw [hcons]
          dsimp only
          rw [hrp, hr2]
        · rw [if_neg hrp]
          have hne : p.1 ≠ r.1 := fun he => hrp he.symm
          rw [lookupA_cons_ne p cur hne]
      · rw [List.map_cons, List.flatten_cons, hx]
        dsimp only
        have hmapc : cur.map (fun q =>
            match lookupA (setA E p.1 (mergeExp p.1 ex p.2).1) q.1 with
            | some ex => (mergeExp q.1 ex q.2).2
            | none => ([] : List Warning))
            = cur.map (fun q =>
            match lookupA E q.1 with
            | some ex => (mergeExp q.1 ex q.2).2
            | none => ([] : List Warning)) := by
          refine List.map_congr_left ?_
          intro q hq
          have hne : p.1 ≠ q.1 := fun he => hpnin (he ▸ List.mem_map_of_mem Prod.fst hq)
          rw [lookupA_setA_ne E _ hne]
        rw [hmapc, ← List.append_assoc]
    | none =>
      dsimp only
      have hxnin : ¬ p.1 ∈ E.map Prod.fst := (lookupA_eq_none_iff _ _).mp hx
      have hE' : ((E ++ [p]).map Prod.fst).Nodup := by
        rw [List.map_append]
        refine List.nodup_append.mpr ⟨hE, List.nodup_singleton _, ?_⟩
        intro a ha hb
        have hb' : a = p.1 := by simpa using hb
        exact hxnin (hb' ▸ ha)
      rw [mergeUpdateAux cur (E ++ [p]) W hE' hcur']
      have happ : ∀ q ∈ cur, lookupA (E ++ [p]) q.1 = lookupA E q.1 := by
        intro q hq
        have hne : p.1 ≠ q.1 := fun he => hpnin (he ▸ List.mem_map_of_mem Prod.fst hq)
        cases hq' : lookupA E q.1 with
        | some v => exact lookupA_append_some [p] hq'
        | none =>
          rw [lookupA_append_none [p] hq']
          exact lookupA_cons_ne p [] hne
      simp only [Prod.mk.injEq]
      constructor
      · have hfil : cur.filter (fun q => (lookupA (E ++ [p]) q.1).isNone)
            = cur.filter (fun q => (lookupA E q.1).isNone) := by
          refine List.filter_congr ?_
          intro q hq
          rw [happ q hq]
        rw [hfil, List.filter_cons_of_pos (by simp [hx]), List.map_append]
        have hone : [p].map (fun r => (r.1,
            match lookupA cur r.1 with
            | some e => (mergeExp r.1 r.2 e).1
            | none => r.2)) = [p] := by
          simp [hcurnone]
        rw [hone, List.append_assoc]
        congr 1
        refine List.map_congr_left ?_
        intro r hr
        have hne : p.1 ≠ r.1 := by
          intro he
          exact hxnin (he ▸ List.mem_map_of_mem Prod.fst hr)
        rw [lookupA_cons_ne p cur hne]
      · rw [List.map_cons, List.flatten_cons, hx]
        dsimp only
        have hmapc : cur.map (fun q =>
            match lookupA (E ++ [p]) q.1 with
            | some ex => (mergeExp q.1 ex q.2).2
            | none => ([] : List Warning))
            = cur.map (fun q =>
            match lookupA E q.1 with
            | some ex => (mergeExp q.1 ex q.2).2
            | none => ([] : List Warning)) := by
          refine List.map_congr_left ?_
          intro q hq
          rw [happ q hq]
        rw [hmapc]
        rfl

theorem mergeUpdate_eq (existing : List (String × Experiment))
    (cur : List (String × Experiment)) (hE : (existing.map Prod.fst).Nodup)
    (hcur : (cur.map Prod.fst).Nodup) :
    mergeUpdate existing cur
      = (existing.map (fun r => (r.1,
            match lookupA cur r.1 with
            | some e => (mergeExp r.1 r.2 e).1
            | none => r.2))
          ++ cur.filter (fun q => (lookupA existing q.1).isNone),
         (cur.map (fun q =>
            match lookupA existing q.1 with
            | some ex => (mergeExp q.1 ex q.2).2
            | none => ([] : List Warning))).flatten) := by
  exact mergeUpdateAux cur existing [] hE hcur

theorem readTrace_goodAnn (g : H5Series) (i : Nat) :
    (g.readTrace i).stimulus ≠ some emptyStr ∧ (g.readTrace i).response ≠ some emptyStr ∧
      (g.readTrace i).key ≠ some emptyStr := by
  unfold H5Series.readTrace
  cases hd : g.dsets with
  | none => simp
  | some d =>
    dsimp only
    exact ⟨decodeAnn_ne_someEmpty _, decodeAnn_ne_someEmpty _, decodeAnn_ne_someEmpty _⟩

theorem readAll_encodeSeriesGroup (s : Series)
    (h : ∀ t ∈ s.traces, t.stimulus ≠ some emptyStr ∧ t.response ≠ some emptyStr ∧
      t.key ≠ some emptyStr) :
    (encodeSeriesGroup s).readAll = s.traces := by
  have hlenR : (encodeSeriesGroup s).lenR = s.traces.length := rfl
  cases hts : s.traces with
  | nil =>
    unfold H5Series.readAll
    rw [hlenR, hts]
    rfl
  | cons t0 rest =>
    rw [hts] at h
    refine List.ext_getElem ?_ ?_
    · unfold H5Series.readAll
      rw [List.length_map, List.length_range, hlenR, hts]
    · intro i h₁ h₂
      unfold H5Series.readAll
      simp only [List.getElem_map, List.getElem_range]
      unfold encodeSeriesGroup H5Series.readTrace
      rw [hts]
      dsimp only
      have hi : i < (t0 :: rest).length := h₂
      obtain ⟨hst, hre, hke⟩ := h _ (List.getElem_mem hi)
      rw [getD_map _ samplesPad hi, getD_map _ ([] : List Nat) hi,
        getD_map _ emptyStr hi, getD_map _ emptyStr hi, getD_map _ emptyStr hi,
        tsDecode_tsEncode, decodeAnn_encodeAnn2 hst, decodeAnn_encodeAnn2 hre,
        decodeAnn_encodeAnn2 hke]

theorem readAll_matSeries (q : String × H5Series) :
    (encodeSeriesGroup (matSeries q)).readAll = q.2.readAll := by
  have hgood : ∀ t ∈ (matSeries q).traces, t.stimulus ≠ some emptyStr ∧
      t.response ≠ some emptyStr ∧ t.key ≠ some emptyStr := by
    intro t ht
    have ht' : t ∈ q.2.readAll := ht
    unfold H5Series.readAll at ht'
    obtain ⟨i, _, rfl⟩ := List.mem_map.mp ht'
    exact readTrace_goodAnn q.2 i
  exact readAll_encodeSeriesGroup (matSeries q) hgood

theorem matExp_names (p : String × H5Exp) :
    (matExp p).series.map (fun s => s.name) = p.2.series.map Prod.fst := by
  show (p.2.series.map matSeries).map (fun s => s.name) = _
  rw [List.map_map]
  rfl

theorem saveHdf5_update_eq (db : TraceDB) (fs : FS) (filename : String) (ov : Bool)
    (dbL : TraceDB) (hL : TraceDB.loadHdf5 fs filename = .ok dbL)
    (exM : List (String × Experiment)) (hM : materializeDB fs dbL = .ok exM)
    (hex : (lookupA fs filename).isSome = true) :
    db.saveHdf5 fs filename .update ov
      = .ok (setA fs filename (writeHdf5File (mergeUpdate exM db.experiments).1),
             (mergeUpdate exM db.experiments).2) := by
  have hbind : ∀ {α β : Type} (a : α) (f : α → Except Err β), (Except.ok a >>= f) = f a :=
    fun a f => rfl
  unfold TraceDB.saveHdf5
  dsimp only
  rw [if_neg (fun hc => SaveMode.noConfusion hc.1), if_pos ⟨rfl, hex⟩]
  rw [hL, hbind]
  rw [hM, hbind]

theorem lookupA_map_pair_value {β γ : Type} (l : List (String × β)) (F : String × β → γ)
    (k : String) :
    lookupA (l.map (fun r => (r.1, F r))) k = (lookupA l k).map (fun v => F (k, v)) := by
  induction l with
  | nil => rfl
  | cons hd tl ih =>
    obtain ⟨k₀, v₀⟩ := hd
    by_cases h₀ : k₀ = k
    · subst h₀
      simp [lookupA]
    · simp [lookupA, h₀, ih]

theorem writeHdf5File_exps (l : List (String × Experiment)) :
    (writeHdf5File l).exps = l.map (fun p =>
      (p.1, { attrs := storeAttrs [] p.2.metadata,
              series := p.2.series.map (fun s => (s.name, encodeSeriesGroup s)) })) := rfl

/-- C5 (amended): saving in update mode against an existing file loads and
materializes the stored hierarchy, then writes a merged file in which, per
experiment present in both hierarchies, the stored series come first —
re-encoded, with their names and decoded trace sequences intact — current
series whose names collide with stored ones are skipped (one non-fatal
warning per collision, no duplicate entry), and non-colliding current series
are appended after the stored ones; current experiments absent from the file
are added wholesale.  The warnings are exactly one `saveSkip` per collision.
The re-encoding is, however, not the identity on the stored groups: see the
counterexample for the dropped measurement identifier. -/
theorem saveUpdate_spec (db : TraceDB) (fs : FS) (filename : String) (ov : Bool)
    (file : H5File) (hf : lookupA fs filename = some file)
    (hE : (file.exps.map Prod.fst).Nodup)
    (hS : ∀ p ∈ file.exps, (p.2.series.map Prod.fst).Nodup)
    (hC : (db.experiments.map Prod.fst).Nodup) :
    ∃ out ws, db.saveHdf5 fs filename .update ov = .ok (setA fs filename out, ws) ∧
      out.exps.map Prod.fst
        = file.exps.map Prod.fst
          ++ (db.experiments.filter (fun q => (lookupA file.exps q.1).isNone)).map
              Prod.fst ∧
      (∀ p ∈ file.exps, ∀ eCur, lookupA db.experiments p.1 = some eCur →
        ∃ eg, lookupA out.exps p.1 = some eg ∧
          eg.attrs = storeAttrs [] p.2.attrs ∧
          eg.series
            = (p.2.series.map (fun q => (q.1, encodeSeriesGroup (matSeries q)))
               ++ (eCur.series.filter
                     (fun sr => !decide (sr.name ∈ p.2.series.map Prod.fst))).map
                   (fun sr => (sr.name, encodeSeriesGroup sr))) ∧
          ∀ q ∈ p.2.series,
            lookupA eg.series q.1 = some (encodeSeriesGroup (matSeries q)) ∧
              (encodeSeriesGroup (matSeries q)).readAll = q.2.readAll) ∧
      (∀ p ∈ db.experiments, lookupA file.exps p.1 = none →
        lookupA out.exps p.1 = some
          { attrs := storeAttrs [] p.2.metadata,
            series := p.2.series.map (fun sr => (sr.name, encodeSeriesGroup sr)) }) ∧
      ws = (db.experiments.map (fun q =>
          match lookupA file.exps q.1 with
          | some eg => (q.2.series.filter
              (fun sr => decide (sr.name ∈ eg.series.map Prod.fst))).map
              (fun sr => Warning.saveSkip q.1 sr.name)
          | none => ([] : List Warning))).flatten := by
  have hL : TraceDB.loadHdf5 fs filename = .ok { experiments := file.exps.map (fun p =>
      (p.1, { name := p.1, metadata := p.2.attrs,
              series := p.2.series.map (fun q =>
                { name := q.1, traces := [], metadata := q.2.attrs, mode := .memory,
                  h5 := none, source := some (filename, p.1),
                  sampleShape := none }) })) } := by
    unfold TraceDB.loadHdf5
    rw [hf]
  have hM := materializeDBLoaded fs filename file hf hE hS
  have hred := saveHdf5_update_eq db fs filename ov _ hL _ hM (by rw [hf]; rfl)
  have hEMnodup : ((file.exps.map (fun p => (p.1, matExp p))).map Prod.fst).Nodup := by
    rw [map_fst_map_pair]
    exact hE
  have hmu := mergeUpdate_eq (file.exps.map (fun p => (p.1, matExp p)))
    db.experiments hEMnodup hC
  have hfilB : db.experiments.filter
      (fun q => (lookupA (file.exps.map (fun p => (p.1, matExp p))) q.1).isNone)
      = db.experiments.filter (fun q => (lookupA file.exps q.1).isNone) := by
    refine List.filter_congr ?_
    intro q _
    rw [lookupA_map_pair_value]
    cases lookupA file.exps q.1 with
    | none => rfl
    | some v => rfl
  refine ⟨_, _, hred, ?_, ?_, ?_, ?_⟩
  · rw [writeHdf5File_exps, map_fst_map_pair, hmu]
    dsimp only
    rw [List.map_append, map_fst_map_pair, map_fst_map_pair, hfilB]
  · intro p hp eCur hCur
    have hfile : lookupA file.exps p.1 = some p.2 := lookupA_of_mem_nodup hE hp
    have hEMlook : lookupA (file.exps.map (fun r => (r.1, matExp r))) p.1
        = some (matExp p) := by
      rw [lookupA_map_pair_value, hfile]
      rfl
    have hApre : lookupA ((file.exps.map (fun r => (r.1, matExp r))).map (fun r => (r.1,
        match lookupA db.experiments r.1 with
        | some e => (mergeExp r.1 r.2 e).1
        | none => r.2))) p.1 = some ((mergeExp p.1 (matExp p) eCur).1) := by
      rw [lookupA_map_pair_value, hEMlook]
      dsimp only
      rw [hCur]
      rfl
    have hlookM : lookupA
        (mergeUpdate (file.exps.map (fun p => (p.1, matExp p))) db.experiments).1 p.1
        = some ((mergeExp p.1 (matExp p) eCur).1) := by
      rw [hmu]
      exact lookupA_append_some _ hApre
    have hlookOut : lookupA
        (writeHdf5File
          (mergeUpdate (file.exps.map (fun p => (p.1, matExp p))) db.experiments).1).exps
        p.1
        = some { attrs := storeAttrs [] ((mergeExp p.1 (matExp p) eCur).1).metadata,
                 series := ((mergeExp p.1 (matExp p) eCur).1).series.map
                   (fun s => (s.name, encodeSeriesGroup s)) } := by
      rw [writeHdf5File_exps, lookupA_map_pair_value, hlookM]
      rfl
    refine ⟨_, hlookOut, ?_, ?_, ?_⟩
    · rw [mergeExp_eq]
      rfl
    · rw [mergeExp_eq]
      dsimp only
      rw [matExp_names, List.map_append]
      congr 1
      show (p.2.series.map matSeries).map (fun s => (s.name, encodeSeriesGroup s)) = _
      rw [List.map_map]
      rfl
    · intro q hq
      refine ⟨?_, readAll_matSeries q⟩
      dsimp only
      rw [mergeExp_eq]
      dsimp only
      rw [List.map_append]
      refine lookupA_append_some _ ?_
      have hin : lookupA (p.2.series.map (fun r => (r.1, encodeSeriesGroup (matSeries r))))
          q.1 = some (encodeSeriesGroup (matSeries q)) :=
        lookupA_map_pair (fun r => encodeSeriesGroup (matSeries r)) (hS p hp) hq
      show lookupA ((p.2.series.map matSeries).map
        (fun s => (s.name, encodeSeriesGroup s))) q.1 = _
      rw [List.map_map]
      exact hin
  · intro p hp hnone
    have hEMnone : lookupA (file.exps.map (fun r => (r.1, matExp r))) p.1 = none := by
      rw [lookupA_map_pair_value, hnone]
      rfl
    have hAnone : lookupA ((file.exps.map (fun r => (r.1, matExp r))).map (fun r => (r.1,
        match lookupA db.experiments r.1 with
        | some e => (mergeExp r.1 r.2 e).1
        | none => r.2))) p.1 = none := by
      rw [lookupA_map_pair_value, hEMnone]
      rfl
    have hmemB : p ∈ db.experiments.filter
        (fun q => (lookupA (file.exps.map (fun p => (p.1, matExp p))) q.1).isNone) := by
      refine List.mem_filter.mpr ⟨hp, ?_⟩
      rw [hEMnone]
      rfl
    have hnodB : ((db.experiments.filter
        (fun q => (lookupA (file.exps.map (fun p => (p.1, matExp p))) q.1).isNone)).map
          Prod.fst).Nodup :=
      hC.sublist ((db.experiments.filter_sublist).map Prod.fst)
    have hlookM : lookupA
        (mergeUpdate (file.exps.map (fun p => (p.1, matExp p))) db.experiments).1 p.1
        = some p.2 := by
      rw [hmu]
      dsimp only
      rw [lookupA_append_none _ hAnone]
      exact lookupA_of_mem_nodup hnodB hmemB
    rw [writeHdf5File_exps, lookupA_map_pair_value, hlookM]
    rfl
  · rw [hmu]
    dsimp only
    congr 1
    refine List.map_congr_left ?_
    intro q _
    cases hx : lookupA file.exps q.1 with
    | none =>
      have hEMq : lookupA (file.exps.map (fun p => (p.1, matExp p))) q.1 = none := by
        rw [lookupA_map_pair_value, hx]
        rfl
      rw [hEMq]
    | some eg0 =>
      have hEMq : lookupA (file.exps.map (fun p => (p.1, matExp p))) q.1
          = some (matExp (q.1, eg0)) := by
        rw [lookupA_map_pair_value, hx]
        rfl
      rw [hEMq]
      dsimp only
      rw [mergeExp_eq]
      dsimp only
      rw [matExp_names (q.1, eg0)]

/-- C5 counterexample: the claim's "every existing series unchanged" fails at
the group level.  An update save re-encodes every stored series through
load → materialize → `_write_hdf5`, and the writer never re-emits the reserved
`measurement_id` attribute (`load_hdf5` skips it and `_write_hdf5` does not
write it): update-saving a database that shares experiment `E` with the target
file rewrites the stored group of series `S` with no measurement identifier,
although the original group records `sida` — observably disabling the C4
append-safety check for later sessions. -/
theorem saveUpdate_measurement_id_cex :
    (lookupGroup fsMid fnF expE snS).map (fun g => g.measurementId)
      = some (some sidA) ∧
    (lookupA dbE0.experiments expE).isSome = true ∧
    (TraceDB.saveHdf5 dbE0 fsMid fnF .update false).map
        (fun r => (lookupGroup r.1 fnF expE snS).map (fun g => g.measurementId))
      = .ok (some none) :=
  ⟨rfl, rfl, rfl⟩

theorem saveUpdate_spec_witness :
    lookupA fsMid fnF = some fileMid ∧
    (∃ out ws, dbNew.saveHdf5 fsMid fnF .update false = .ok (setA fsMid fnF out, ws) ∧
      out.exps.map Prod.fst
        = fileMid.exps.map Prod.fst
          ++ (dbNew.experiments.filter
              (fun q => (lookupA fileMid.exps q.1).isNone)).map Prod.fst ∧
      (∀ p ∈ fileMid.exps, ∀ eCur, lookupA dbNew.experiments p.1 = some eCur →
        ∃ eg, lookupA out.exps p.1 = some eg ∧
          eg.attrs = storeAttrs [] p.2.attrs ∧
          eg.series
            = (p.2.series.map (fun q => (q.1, encodeSeriesGroup (matSeries q)))
               ++ (eCur.series.filter
                     (fun sr => !decide (sr.name ∈ p.2.series.map Prod.fst))).map
                   (fun sr => (sr.name, encodeSeriesGroup sr))) ∧
          ∀ q ∈ p.2.series,
            lookupA eg.series q.1 = some (encodeSeriesGroup (matSeries q)) ∧
              (encodeSeriesGroup (matSeries q)).readAll = q.2.readAll) ∧
      (∀ p ∈ dbNew.experiments, lookupA fileMid.exps p.1 = none →
        lookupA out.exps p.1 = some
          { attrs := storeAttrs [] p.2.metadata,
            series := p.2.series.map (fun sr => (sr.name, encodeSeriesGroup sr)) }) ∧
      ws = (dbNew.experiments.map (fun q =>
          match lookupA fileMid.exps q.1 with
          | some eg => (q.2.series.filter
              (fun sr => decide (sr.name ∈ eg.series.map Prod.fst))).map
              (fun sr => Warning.saveSkip q.1 sr.name)
          | none => ([] : List Warning))).flatten) :=
  ⟨rfl, saveUpdate_spec dbNew fsMid fnF false fileMid rfl (by decide) (by decide)
    (by decide)⟩
